import Mathlib

/-!
# mizumanju: image cache and request-action pipeline

A shallow embedding of `src/imgmap/imgmap.go` (the in-memory image cache), of
`src/server.go` (the action combinators `makeOne`, `makeAuthedAction`, `inArray`,
the handler built by `makeCtxHandler`, and `NewResponse`), of `validateLogin`
and `validateUser` of `src/validator.go`, of `deleteUser` and `postUser` of
`src/action.go` and of `SaveImage` and `GetImage` of `src/db.go`, followed by
the properties established about them.

Conventions of the embedding

* A Go slice is an `Option (List α)`: `none` is the nil slice, `some l` a
  non-nil slice (`some []` is the empty, non-nil slice). The source compares
  slices with `nil`, so the two empty slices are kept apart.
* A Go `error` is an `Option GoError`: `none` is the nil error. The sentinel
  errors are compared by identity in the source, hence they are constructors.
* `int64` values are integers; arithmetic on them wraps through `wrapInt64`.
* `time.Now().Unix()` is an explicit argument `now` of the operation reading it.
* The read-write mutex of `ImgMap` guards single map operations; the embedding
  is sequential, each operation being one atomic step on the map.
* A response body is a list of bytes; a Go string written to it contributes its
  UTF-8 encoding (`utf8`). `encoding/json` and `fmt` are embedded as far as the
  program uses them: the encoding of a `Response`, and `Sprintf` with one `%s`.
* The database behind `db.go` is outside the program: the functions that reach
  it are parameters (`Db`), and their calls are observed through a log.
* `mail.ParseAddress` and `base64.StdEncoding.DecodeString` are parameters of
  the functions calling them.
-/

namespace Mizumanju

/-! ## Go values -/

/-- One Go `byte`. -/
abbrev Byte := Fin 256

/-- A Go slice: `none` is `nil`, `some l` is a non-nil slice with elements `l`. -/
abbrev Slice (α : Type) := Option (List α)

/-- Go `[]byte`. -/
abbrev Bytes := Slice Byte

/-- The error values the program distinguishes by identity, and every other error
(carrying its text). `ErrNotFound`, `ErrUnauthorized` are declared in `db.go`,
`ErrBadRequest` in `server.go`, `ErrValidation` in `validator.go`; `sqlErrNoRows`
stands for `sql.ErrNoRows`. -/
inductive GoError where
  | ErrNotFound
  | ErrUnauthorized
  | ErrBadRequest
  | ErrValidation
  | sqlErrNoRows
  | other (text : String)
deriving DecidableEq, Repr

/-- A Go `error` interface value: `none` is the nil error. -/
abbrev Error := Option GoError

/-- Wrap-around of an integer into the `int64` range (two-complement). -/
def wrapInt64 (x : Int) : Int := (x + 2 ^ 63) % 2 ^ 64 - 2 ^ 63

/-- Membership in the `int64` range. -/
def isInt64 (x : Int) : Prop := -(2 ^ 63) ≤ x ∧ x < 2 ^ 63

instance (x : Int) : Decidable (isInt64 x) := by
  unfold isInt64; exact inferInstance

/-! ## Package imgmap -/

namespace imgmap

/-- The struct `img`: the image bytes and the Unix time (seconds, `int64`) of the
`Set` that stored them. -/
structure img where
  data : Bytes
  timestamp : Int
deriving DecidableEq, Repr

/-- The struct `ImgMap`: the field `m` of type `map[int32]*img`, as a partial
function from owner id to entry (an absent key and a nil pointer both read as
`none`, exactly as `i := images.m[key]; i != nil` reads them). -/
structure ImgMap where
  m : Int → Option img

/-- The function `New`: an image map without entries. -/
def New : ImgMap := { m := fun _ => none }

/-- Modelled from the spec: the generated asset table of package imgmap (the
function `Asset` and the embedded file `noimage.png`) is not among the sources.
The spec calls what `Get` falls back to a fixed placeholder payload that is
returned instead of an error; `noimage` stands for the bytes of the embedded
file. Any other name is not an embedded asset and yields an error. -/
def Asset (noimage : List Byte) (name : String) : Bytes × Error :=
  if name = "noimage.png" then (some noimage, none)
  else (none, some (GoError.other ("Asset " ++ name ++ " not found")))

/-- The method `ImgMap.Get`, with `now` the value of `time.Now().Unix()`.
The result pairs the returned `([]byte, error)` with the map after the call. -/
def ImgMap.Get (noimage : List Byte) (images : ImgMap) (now : Int) (key : Int) :
    (Bytes × Error) × ImgMap :=
  match images.m key with
  | some i =>
    if i.timestamp > wrapInt64 (now - 30) then ((i.data, none), images)
    else (Asset noimage "noimage.png", images)
  | none => (Asset noimage "noimage.png", images)

/-- The method `ImgMap.Set`, with `now` the value of `time.Now().Unix()`. -/
def ImgMap.Set (images : ImgMap) (now : Int) (key : Int) (imgdata : Bytes) : ImgMap :=
  { m := fun k => if k = key then some { data := imgdata, timestamp := now } else images.m k }

/-- One call on an image map, as issued by some request: a `Set` or a `Get`
with its clock reading. -/
inductive Call where
  | set (now : Int) (key : Int) (imgdata : Bytes)
  | get (now : Int) (key : Int)
deriving DecidableEq, Repr

/-- The keys written by a call. -/
def Call.writes : Call → Int → Bool
  | Call.set _ key _, k => decide (key = k)
  | Call.get _ _, _ => false

/-- The map after one call. -/
def step (noimage : List Byte) (images : ImgMap) : Call → ImgMap
  | Call.set now key imgdata => images.Set now key imgdata
  | Call.get now key => (images.Get noimage now key).2

/-- The map after a sequence of calls, executed in order. -/
def run (noimage : List Byte) (images : ImgMap) (calls : List Call) : ImgMap :=
  calls.foldl (step noimage) images

end imgmap

/-! ## Package mizumanju: the data the actions work on -/

/-- The struct `User` of `db.go`. `Id` and `OrderNo` are `int32`; `Created` is a
`time.Time`, kept as its Unix time. -/
structure User where
  Id : Int
  Name : String
  VoiceChatID : String
  Hide : Bool
  Image : String
  Role : String
  AuthId : String
  DeleteFlag : Bool
  Email : String
  OrderNo : Int
  Created : Int
deriving DecidableEq, Repr

/-- The interface type `params`: the decoded request body, one constructor per
shape registered in `Start` (a pointer to the struct of `param.go`, to a `User`,
or to a slice of `User`), or nil. -/
inductive params where
  | nil
  | loginParams (Username Password : String)
  | imageParams (Image : String)
  | statusParams (Status : String)
  | recoveryRequestParams (Email : String)
  | recoveryParams (Password : String)
  | passwordParams (CurrentPassword NewPassword : String)
  | user (u : User)
  | users (us : List User)
deriving DecidableEq, Repr

/-- A value of type `interface{}` held in the session or in the request context:
a non-nil `*User`, a `User` held by value, a string, or a value of any other
dynamic type (told apart by a tag). -/
inductive Value where
  | userPtr (u : User)
  | userVal (u : User)
  | str (s : String)
  | foreign (tag : Nat)
deriving DecidableEq, Repr

/-- A key of the request context: the string constant `userkey`, or a constant
of the type `key` of `db.go` (`dbkey`, `smtpkey`, `tmplkey`, `systemkey`). -/
inductive CtxKey where
  | str (s : String)
  | key (n : Int)
deriving DecidableEq, Repr

/-- The constant `userkey`. -/
def userkey : CtxKey := CtxKey.str "LoginUser"

/-- The constant `admin`. -/
def admin : String := "admin"

/-- The constant `editor`. -/
def editor : String := "editor"

/-- What an action can read and change through `w http.ResponseWriter` and
`r *http.Request`:
* `session`: the field `Values` of the session `store.Get(r, sessionAuth)`;
* `context`: the per-request store behind `context.Get(r, _)` / `context.Set(r, _, _)`;
* `ext`: everything else (response writer, database, mail, image cache). -/
structure World (σ : Type) where
  session : String → Option Value
  context : CtxKey → Option Value
  ext : σ

/-- The call `context.Set(r, k, v)`. -/
def World.contextSet {σ : Type} (w : World σ) (k : CtxKey) (v : Value) : World σ :=
  { w with context := fun k' => if k' = k then some v else w.context k' }

/-- The same session and context around another rest of the world. -/
def World.withExt {σ τ : Type} (w : World σ) (e : τ) : World τ :=
  { session := w.session, context := w.context, ext := e }

/-- What an action returns: the pair `([]byte, error)`. -/
abbrev Result := Bytes × Error

/-- The type `actionFunc`: given the world behind `(w, r)` and the params, the
returned pair and the world after the call. -/
abbrev actionFunc (σ : Type) := World σ → params → Result × World σ

/-! ## Package mizumanju: the combinators of server.go -/

/-- The loop `for _, e := range a` of `inArray` over the elements of `a`, with the
`return false` that follows it. -/
def inArrayRange : List String → String → Bool
  | [], _ => false
  | e :: rest, s => if e = s then true else inArrayRange rest s

/-- The function `inArray`: whether some element of `a` equals `s`. Ranging over
a nil slice runs no iteration. -/
def inArray (a : Slice String) (s : String) : Bool :=
  match a with
  | none => false
  | some l => inArrayRange l s

/-- The function `makeAuthedAction`. `roles` is the variadic parameter: `none`
when the call passes no role, `some l` when it passes the roles `l`. The session
value under `"user"` passes the type assertion `.(*User)` only when it is a
`*User`. The `log.Printf` of the rejected role is not part of the world. -/
def makeAuthedAction {σ : Type} (fn : actionFunc σ) (roles : Slice String) : actionFunc σ :=
  fun w p =>
    match w.session "user" with
    | some (Value.userPtr user) =>
      if roles ≠ none ∧ !inArray roles user.Role then ((none, some GoError.ErrUnauthorized), w)
      else fn (w.contextSet userkey (Value.userPtr user)) p
    | _ => ((none, some GoError.ErrUnauthorized), w)

/-- The condition `b != nil || err != nil` that ends the loop of `makeOne`. -/
def stops (r : Result) : Bool := r.1.isSome || r.2.isSome

/-- The builtin `len` on a slice: a nil slice has length 0. -/
def len {α : Type} : Slice α → Nat
  | none => 0
  | some l => l.length

/-- The loop of `makeOne` over the remaining actions; `acc` is the current value
of the named results `(b, err)`. -/
def makeOneLoop {σ : Type} : List (actionFunc σ) → Result → World σ → params → Result × World σ
  | [], acc, w, _ => (acc, w)
  | fn :: rest, _, w, p =>
    let out := fn w p
    if stops out.1 then out else makeOneLoop rest out.1 out.2 p

/-- The function `makeOne`: the named results start as `(nil, nil)`. -/
def makeOne {σ : Type} (fns : List (actionFunc σ)) : actionFunc σ :=
  fun w p => makeOneLoop fns (none, none) w p

/-! ## Observing invocations

An action is an arbitrary function on the world, so an invocation is observed by
wrapping the action: the wrapper runs the action unchanged and appends a record
to a log kept next to the rest of the world. -/

/-- The record of one invocation: which action ran (its position), the params
and the login user of the request context it was given, and what it returned. -/
structure Invocation where
  idx : Nat
  p : params
  loginUser : Option Value
  ret : Result
deriving DecidableEq, Repr

/-- The action `fn` at position `i`, with its invocations logged. -/
def traced {σ : Type} (i : Nat) (fn : actionFunc σ) : actionFunc (σ × List Invocation) :=
  fun w p =>
    let out := fn (w.withExt w.ext.1) p
    (out.1, out.2.withExt (out.2.ext,
      w.ext.2 ++ [{ idx := i, p := p, loginUser := w.context userkey, ret := out.1 }]))

/-- The actions `fns`, logged under the positions `n`, `n + 1`, and so on. -/
def tracedFrom {σ : Type} : Nat → List (actionFunc σ) → List (actionFunc (σ × List Invocation))
  | _, [] => []
  | n, fn :: rest => traced n fn :: tracedFrom (n + 1) rest

/-- A world with an empty invocation log. -/
def World.fresh {σ : Type} (w : World σ) : World (σ × List Invocation) :=
  w.withExt (w.ext, [])

/-- The invocation log of a world. -/
def World.log {σ : Type} (w : World (σ × List Invocation)) : List Invocation := w.ext.2

/-- The world without its invocation log. -/
def World.unlog {σ : Type} (w : World (σ × List Invocation)) : World σ := w.withExt w.ext.1

/-- The invocations `makeOneLoop` performs on `fns`, counted from position `n`. -/
def invocationsFrom {σ : Type} : Nat → List (actionFunc σ) → World σ → params → List Invocation
  | _, [], _, _ => []
  | n, fn :: rest, w, p =>
    let out := fn w p
    { idx := n, p := p, loginUser := w.context userkey, ret := out.1 } ::
      (if stops out.1 then [] else invocationsFrom (n + 1) rest out.2 p)

/-! ## Sample actions and worlds -/

/-- A world without session values and context values, whose rest is a counter. -/
def sampleWorld : World Nat := { session := fun _ => none, context := fun _ => none, ext := 0 }

/-- An action that adds `k` to the counter and returns `r`. -/
def sampleAction (k : Nat) (r : Result) : actionFunc Nat :=
  fun w _ => (r, { w with ext := w.ext + k })

/-- A user with the given id and role. -/
def sampleUser (id : Int) (role : String) : User :=
  { Id := id, Name := "name", VoiceChatID := "", Hide := false, Image := "", Role := role,
    AuthId := "auth", DeleteFlag := false, Email := "user@example.com", OrderNo := 0,
    Created := 0 }

/-- The sample world with `v` stored in the session under `"user"`. -/
def sampleSession (v : Value) : World Nat :=
  { sampleWorld with session := fun k => if k = "user" then some v else none }

/-! ## Package mizumanju: the response writer and the handler of server.go -/

/-- The method `Error()` of an error value: the text given to `errors.New` for
the sentinel errors of the program, the text of `sql.ErrNoRows`, and the carried
text of any other error. -/
def GoError.Error : GoError → String
  | GoError.ErrNotFound => "Data not found"
  | GoError.ErrUnauthorized => "Unauthorized"
  | GoError.ErrBadRequest => "Bad Request."
  | GoError.ErrValidation => "Bad Request"
  | GoError.sqlErrNoRows => "sql: no rows in result set"
  | GoError.other text => text

/-- The UTF-8 encoding of one character. -/
def utf8Char (c : Char) : List Byte :=
  let n := c.toNat
  if n < 128 then [Fin.ofNat n]
  else if n < 2048 then [Fin.ofNat (192 + n / 64), Fin.ofNat (128 + n % 64)]
  else if n < 65536 then
    [Fin.ofNat (224 + n / 4096), Fin.ofNat (128 + n / 64 % 64), Fin.ofNat (128 + n % 64)]
  else
    [Fin.ofNat (240 + n / 262144), Fin.ofNat (128 + n / 4096 % 64),
     Fin.ofNat (128 + n / 64 % 64), Fin.ofNat (128 + n % 64)]

/-- The bytes of a Go string (its UTF-8 encoding), as written by `w.Write([]byte(s))`. -/
def utf8 (s : String) : List Byte := s.data.flatMap utf8Char

/-- The state of an `http.ResponseWriter`: the header map, the status code once
the header has been written, and the body written so far. -/
structure ResponseWriter where
  header : List (String × String)
  status : Option Nat
  body : List Byte
deriving DecidableEq, Repr

/-- The call `w.Header().Set(k, v)`. -/
def ResponseWriter.HeaderSet (w : ResponseWriter) (k v : String) : ResponseWriter :=
  { w with header := (k, v) :: w.header.filter (fun e => e.1 ≠ k) }

/-- The call `w.WriteHeader(code)`: the first call fixes the status code, a later
call is superfluous and changes nothing. -/
def ResponseWriter.WriteHeader (w : ResponseWriter) (code : Nat) : ResponseWriter :=
  match w.status with
  | none => { w with status := some code }
  | some _ => w

/-- The call `w.Write(b)`: writes the header with status 200 when no header has
been written yet, then appends the bytes (none for a nil slice). -/
def ResponseWriter.Write (w : ResponseWriter) (b : Bytes) : ResponseWriter :=
  let w1 := w.WriteHeader 200
  { w1 with body := w1.body ++ b.getD [] }

/-- The call `fmt.Fprintln(w, s)` for one string operand: writes `s` and a
newline. -/
def ResponseWriter.Fprintln (w : ResponseWriter) (s : String) : ResponseWriter :=
  w.Write (some (utf8 (s ++ "\n")))

/-- The constant `http.StatusOK`. -/
def StatusOK : Nat := 200

/-- The constant `http.StatusBadRequest`. -/
def StatusBadRequest : Nat := 400

/-- The constant `http.StatusUnauthorized`. -/
def StatusUnauthorized : Nat := 401

/-- The constant `http.StatusNotFound`. -/
def StatusNotFound : Nat := 404

/-- The constant `http.StatusInternalServerError`. -/
def StatusInternalServerError : Nat := 500

/-- The constant `errJsTmpl`. -/
def errJsTmpl : String := "\x7b\"msgs\":\x7b\"global\":[\"%s\"]\x7d,\"data\":null\x7d"

/-- The constant `err404Tmpl`. -/
def err404Tmpl : String :=
  "\x7b\"msgs\":\x7b\"global\":[\"404 page not found\"]\x7d,\"data\":null\x7d"

/-- The verb `%s` of `fmt.Sprintf` with one string operand, on the characters of
the format: the first `%s` is replaced by the operand as it is, every other
character is copied. (The formats of the program hold one `%s` and no other
verb.) -/
def sprintfChars : List Char → List Char → List Char
  | [], _ => []
  | [c], _ => [c]
  | c :: d :: rest, arg =>
    if c = '%' ∧ d = 's' then arg ++ rest else c :: sprintfChars (d :: rest) arg

/-- The call `fmt.Sprintf(format, arg)` for a format with one `%s`. -/
def Sprintf (format arg : String) : String := String.mk (sprintfChars format.data arg.data)

/-- What a handler of `server.go` reaches through `(w, r)` besides the session
and the request context: the response writer `w`, the request body `r.Body`, the
route variables `mux.Vars(r)` (a missing key reads as the empty string), and the
rest of the world (database, mail, image cache). -/
structure Env (σ : Type) where
  w : ResponseWriter
  body : List Byte
  vars : String → String
  rest : σ

/-- The world after a change of the response writer. -/
def World.onWriter {σ : Type} (r : World (Env σ)) (f : ResponseWriter → ResponseWriter) :
    World (Env σ) :=
  { r with ext := { r.ext with w := f r.ext.w } }

/-- The same world around another rest. -/
def World.withRest {σ τ : Type} (r : World (Env σ)) (x : τ) : World (Env τ) :=
  { session := r.session, context := r.context,
    ext := { w := r.ext.w, body := r.ext.body, vars := r.ext.vars, rest := x } }

/-- The package variables `db`, `tmpl`, `smtpConf` and `systemConf` of
`server.go`, as the values stored in the request context. -/
structure Globals where
  db : Value
  tmpl : Value
  smtpConf : Value
  systemConf : Value

/-- The constant `dbkey`. -/
def dbkey : CtxKey := CtxKey.key 1

/-- The constant `smtpkey`. -/
def smtpkey : CtxKey := CtxKey.key 2

/-- The constant `tmplkey`. -/
def tmplkey : CtxKey := CtxKey.key 3

/-- The constant `systemkey`. -/
def systemkey : CtxKey := CtxKey.key 4

/-- The function `SetDB`. -/
def SetDB {σ : Type} (r : World σ) (db : Value) : World σ := r.contextSet dbkey db

/-- The function `SetMailTmpl`. -/
def SetMailTmpl {σ : Type} (r : World σ) (tmpl : Value) : World σ := r.contextSet tmplkey tmpl

/-- The function `SetSmtpConf`. -/
def SetSmtpConf {σ : Type} (r : World σ) (smtpConf : Value) : World σ :=
  r.contextSet smtpkey smtpConf

/-- The function `SetSystemConf`. -/
def SetSystemConf {σ : Type} (r : World σ) (cnf : Value) : World σ :=
  r.contextSet systemkey cnf

/-- The first stage of the closure built by `makeCtxHandler` (lines 167 to 171):
the four context bindings and the content type. -/
def bindContext {σ : Type} (g : Globals) (r : World (Env σ)) : World (Env σ) :=
  (SetSystemConf (SetSmtpConf (SetMailTmpl (SetDB r g.db) g.tmpl) g.smtpConf)
    g.systemConf).onWriter
    (fun w => w.HeaderSet "Content-Type" "application/json; charset=utf-8")

/-- The branch of the closure built by `makeCtxHandler` taken when decoding the
body fails with the error text `e` (lines 177 and 178). -/
def writeDecodeError (e : String) (w : ResponseWriter) : ResponseWriter :=
  (w.WriteHeader StatusInternalServerError).Fprintln (Sprintf errJsTmpl e)

/-- The last stage of the closure built by `makeCtxHandler` (lines 184 to 210):
the switch on the error returned by the action, the cases tried in order, and
the final `w.Write(ret)`. The `log.Println` calls are not part of the world. -/
def writeOutcome (ret : Bytes) (err : Error) (w : ResponseWriter) : ResponseWriter :=
  if err = some GoError.ErrNotFound ∨ err = some GoError.sqlErrNoRows then
    (w.WriteHeader StatusNotFound).Fprintln err404Tmpl
  else if err = some GoError.ErrUnauthorized then
    (w.WriteHeader StatusUnauthorized).Fprintln
      (Sprintf errJsTmpl ((err.map GoError.Error).getD ""))
  else if err = some GoError.ErrBadRequest then
    (w.WriteHeader StatusBadRequest).Fprintln
      (Sprintf errJsTmpl ((err.map GoError.Error).getD ""))
  else if err = some GoError.ErrValidation then
    (w.WriteHeader StatusBadRequest).Write ret
  else if err ≠ none then
    (w.WriteHeader StatusInternalServerError).Fprintln
      (Sprintf errJsTmpl ((err.map GoError.Error).getD ""))
  else w.Write ret

/-- The function `makeCtxHandler`: the handler for the action `fn` and the
declared params shape `p` (nil when the route declares none), run on one
request. `decode body p` stands for `json.NewDecoder(r.Body).Decode(&p)`: the
error text when decoding fails, else the params filled from the body. -/
def makeCtxHandler {σ : Type} (g : Globals) (decode : List Byte → params → Except String params)
    (fn : actionFunc (Env σ)) (p : params) (r0 : World (Env σ)) : World (Env σ) :=
  let r := bindContext g r0
  if p ≠ params.nil then
    match decode r.ext.body p with
    | Except.error e => r.onWriter (writeDecodeError e)
    | Except.ok p1 =>
      let out := fn r p1
      out.2.onWriter (writeOutcome out.1.1 out.1.2)
  else
    let out := fn r p
    out.2.onWriter (writeOutcome out.1.1 out.1.2)

/-- The action `fn` at position `i` of a handler, with its invocations logged
next to the rest of the world. -/
def tracedEnv {σ : Type} (i : Nat) (fn : actionFunc (Env σ)) :
    actionFunc (Env (σ × List Invocation)) :=
  fun r p =>
    let out := fn (r.withRest r.ext.rest.1) p
    (out.1, out.2.withRest (out.2.ext.rest,
      r.ext.rest.2 ++ [{ idx := i, p := p, loginUser := r.context userkey, ret := out.1 }]))

/-! ## Package mizumanju: the response envelope and its JSON encoding -/

/-- The contents of a non-nil `map[string][]string`: the entries, one per key. -/
abbrev StrMap := List (String × Slice String)

/-- The assignment `m[k] = v` on a non-nil map. -/
def mapSet (m : StrMap) (k : String) (v : Slice String) : StrMap :=
  (k, v) :: m.filter (fun e => e.1 ≠ k)

/-- The struct `Response`. `Msgs` is a `map[string][]string` (`none` is the nil
map). `Data` is an `interface{}`: `none` is the nil interface, `some j` a value
whose JSON encoding is the text `j`. -/
structure Response where
  Msgs : Option StrMap
  Data : Option String
deriving DecidableEq, Repr

/-- The first argument of `NewResponse`, an `interface{}`, by dynamic type: the
nil interface, a `string`, a `[]string`, a `map[string][]string` (nil or not),
or a value of any other type. -/
inductive MsgsArg where
  | nil
  | str (s : String)
  | strs (l : Slice String)
  | map (m : Option StrMap)
  | foreign (tag : Nat)
deriving DecidableEq, Repr

/-- The constant `GlobalMsg`. -/
def GlobalMsg : String := "global"

/-- The function `NewResponse`: the type switch on `msgs`. -/
def NewResponse (msgs : MsgsArg) (data : Option String) : Response :=
  let m : Option StrMap :=
    match msgs with
    | MsgsArg.str s => some (mapSet [] GlobalMsg (some [s]))
    | MsgsArg.strs l => some (mapSet [] GlobalMsg l)
    | MsgsArg.map m => m
    | _ => some []
  { Msgs := m, Data := data }

/-- The lower-case hexadecimal digit of a number below 16. -/
def hexDigit (n : Nat) : Char := "0123456789abcdef".data.getD n '0'

/-- The characters `encoding/json` writes for one character of a string: the
short escapes for the quote, the backslash, newline, carriage return and tab, a
`\u00XX` escape for the other control characters and for `<`, `>`, `&`, a
`\u202X` escape for the two Unicode line separators, and the character itself
otherwise. -/
def jsonChar (c : Char) : List Char :=
  let n := c.toNat
  if n = 34 then [Char.ofNat 92, Char.ofNat 34]
  else if n = 92 then [Char.ofNat 92, Char.ofNat 92]
  else if n = 10 then [Char.ofNat 92, 'n']
  else if n = 13 then [Char.ofNat 92, 'r']
  else if n = 9 then [Char.ofNat 92, 't']
  else if n < 32 ∨ n = 60 ∨ n = 62 ∨ n = 38 then
    [Char.ofNat 92, 'u', '0', '0', hexDigit (n / 16), hexDigit (n % 16)]
  else if n = 8232 then [Char.ofNat 92, 'u', '2', '0', '2', '8']
  else if n = 8233 then [Char.ofNat 92, 'u', '2', '0', '2', '9']
  else [c]

/-- The JSON encoding of a Go string. -/
def jsonString (s : String) : List Char :=
  Char.ofNat 34 :: (s.data.flatMap jsonChar ++ [Char.ofNat 34])

/-- The elements of a JSON array or object, separated by commas. -/
def commaSep : List (List Char) → List Char
  | [] => []
  | [x] => x
  | x :: y :: rest => x ++ ',' :: commaSep (y :: rest)

/-- The JSON encoding of a `[]string`: `null` for the nil slice. -/
def jsonStrings : Slice String → List Char
  | none => "null".data
  | some l => '[' :: (commaSep (l.map jsonString) ++ [']'])

/-- Whether one string sorts before another (the order of Go strings). -/
def ltChars : List Char → List Char → Bool
  | _, [] => false
  | [], _ :: _ => true
  | a :: as, b :: bs => if a.toNat < b.toNat then true else if a = b then ltChars as bs else false

/-- Insertion of an entry into a list of entries sorted by key. -/
def insertByKey (e : String × Slice String) : StrMap → StrMap
  | [] => [e]
  | x :: rest => if ltChars x.1.data e.1.data then x :: insertByKey e rest else e :: x :: rest

/-- The entries of a map in the order of their keys, as `encoding/json` writes
them. -/
def sortedByKey : StrMap → StrMap
  | [] => []
  | e :: rest => insertByKey e (sortedByKey rest)

/-- The JSON encoding of a `map[string][]string`: `null` for the nil map. -/
def jsonMap : Option StrMap → List Char
  | none => "null".data
  | some m =>
    Char.ofNat 123 ::
      (commaSep ((sortedByKey m).map (fun e => jsonString e.1 ++ ':' :: jsonStrings e.2))
        ++ [Char.ofNat 125])

/-- The text `json.Marshal` returns for a `Response`: the fields `msgs` and
`data` in the order of the struct. -/
def jsonMarshalResponse (r : Response) : String :=
  String.mk ("\x7b\"msgs\":".data ++ jsonMap r.Msgs ++ ",\"data\":".data ++
    (match r.Data with
     | none => "null".data
     | some j => j.data) ++ [Char.ofNat 125])

/-- The text `%T` prints for a params value: its dynamic type. -/
def params.goType : params → String
  | params.nil => "<nil>"
  | params.loginParams _ _ => "*mizumanju.loginParams"
  | params.imageParams _ => "*mizumanju.imageParams"
  | params.statusParams _ => "*mizumanju.statusParams"
  | params.recoveryRequestParams _ => "*mizumanju.recoveryRequestParams"
  | params.recoveryParams _ => "*mizumanju.recoveryParams"
  | params.passwordParams _ _ => "*mizumanju.passwordParams"
  | params.user _ => "*mizumanju.User"
  | params.users _ => "*[]mizumanju.User"

/-- The function `validateLogin` of `validator.go`. Marshalling a `Response`
whose data is nil cannot fail, so the branch for a marshalling error is left
out. -/
def validateLogin {σ : Type} : actionFunc σ :=
  fun w p =>
    match p with
    | params.loginParams Username Password =>
      let m0 : StrMap := []
      let m1 := if Username = "" then mapSet m0 "username" (some ["Username is required."]) else m0
      let m2 := if Password = "" then mapSet m1 "password" (some ["Password is required."]) else m1
      if m2.length > 0 then
        ((some (utf8 (jsonMarshalResponse (NewResponse (MsgsArg.map (some m2)) none))),
          some GoError.ErrValidation), w)
      else ((none, none), w)
    | _ =>
      ((none, some (GoError.other ("Expected *loginParams, but actual is " ++ p.goType))), w)

/-! ## Package mizumanju: the actions deleteUser and postUser of action.go -/

/-- The value of a string of decimal digits, read after the value `acc` of the
digits before it; `none` when a character is not a digit. -/
def digitsValue : List Char → Nat → Option Nat
  | [], acc => some acc
  | c :: cs, acc =>
    if 48 ≤ c.toNat ∧ c.toNat ≤ 57 then digitsValue cs (10 * acc + (c.toNat - 48)) else none

/-- The call `strconv.ParseInt(s, 10, 32)`: an optional sign followed by at
least one decimal digit, denoting a value of the `int32` range; `none` stands
for a non-nil error (wrong syntax or value out of range). -/
def ParseInt (s : String) : Option Int :=
  match s.data with
  | [] => none
  | c :: cs =>
    let neg : Bool := c = '-'
    let ds := if c = '+' ∨ c = '-' then cs else c :: cs
    if ds = [] then none
    else
      match digitsValue ds 0 with
      | none => none
      | some un =>
        if neg = false ∧ un ≥ 2 ^ 31 then none
        else if neg = true ∧ un > 2 ^ 31 then none
        else some (if neg then -(un : Int) else (un : Int))

/-- The functions of `db.go` that the two actions call. They run SQL statements
on the database behind the request (and `InsertUser` sends a mail); the
database is outside the program, so they are taken as they come: any functions
of the world and their argument. -/
structure Db (σ : Type) where
  InsertUser : World (Env σ) → User → (User × Error) × World (Env σ)
  UpdateUser : World (Env σ) → User → (User × Error) × World (Env σ)
  DelUser : World (Env σ) → Int → Error × World (Env σ)

/-- One call of a function of `Db`, with its argument. -/
inductive DbCall where
  | InsertUser (user : User)
  | UpdateUser (user : User)
  | DelUser (userId : Int)
deriving DecidableEq, Repr

/-- The functions of `db`, with their calls logged next to the rest of the
world. -/
def Db.recorded {σ : Type} (db : Db σ) : Db (σ × List DbCall) where
  InsertUser := fun r user =>
    let out := db.InsertUser (r.withRest r.ext.rest.1) user
    (out.1, out.2.withRest (out.2.ext.rest, r.ext.rest.2 ++ [DbCall.InsertUser user]))
  UpdateUser := fun r user =>
    let out := db.UpdateUser (r.withRest r.ext.rest.1) user
    (out.1, out.2.withRest (out.2.ext.rest, r.ext.rest.2 ++ [DbCall.UpdateUser user]))
  DelUser := fun r userId =>
    let out := db.DelUser (r.withRest r.ext.rest.1) userId
    (out.1, out.2.withRest (out.2.ext.rest, r.ext.rest.2 ++ [DbCall.DelUser userId]))

/-- The function `deleteUser`. The conversion `int32(id64)` changes nothing, the
parsed value being in the `int32` range. -/
def deleteUser {σ : Type} (db : Db σ) : actionFunc (Env σ) :=
  fun r _ =>
    match ParseInt (r.ext.vars "id") with
    | none => ((none, some GoError.ErrBadRequest), r)
    | some id32 =>
      match r.context userkey with
      | some (Value.userPtr user) =>
        if user.Id = id32 then ((none, some GoError.ErrBadRequest), r)
        else
          let out := db.DelUser r id32
          match out.1 with
          | some e => ((none, some e), out.2)
          | none =>
            ((some (utf8 (jsonMarshalResponse (NewResponse (MsgsArg.str "OK") none))), none),
              out.2)
      | _ => ((none, some (GoError.other "Server Error")), r)

/-- The function `postUser`. `encUser` is the JSON encoding of a `User` record,
which `json.Marshal` writes for the data of the response. -/
def postUser {σ : Type} (db : Db σ) (encUser : User → String) : actionFunc (Env σ) :=
  fun r p =>
    match p with
    | params.user param =>
      if param.Id > 0 then
        match r.context userkey with
        | some (Value.userPtr u) =>
          if u.Role = editor ∧ param.Id ≠ u.Id then ((none, some GoError.ErrUnauthorized), r)
          else
            let param1 := if u.Role = editor then { param with Role := editor } else param
            let out := db.UpdateUser r param1
            match out.1.2 with
            | some e => ((none, some e), out.2)
            | none =>
              ((some (utf8 (jsonMarshalResponse
                (NewResponse MsgsArg.nil (some (encUser out.1.1))))), none), out.2)
        | _ => ((none, some (GoError.other "Server Error")), r)
      else
        let out := db.InsertUser r param
        match out.1.2 with
        | some e => ((none, some e), out.2)
        | none =>
          ((some (utf8 (jsonMarshalResponse
            (NewResponse MsgsArg.nil (some (encUser out.1.1))))), none), out.2)
    | _ => ((none, some (GoError.other ("Expected *User, but actual is " ++ p.goType))), r)

/-! ## Reading a response body as JSON -/

/-- The value of a hexadecimal digit. -/
def hexValue (c : Char) : Option Nat :=
  let n := c.toNat
  if 48 ≤ n ∧ n ≤ 57 then some (n - 48)
  else if 97 ≤ n ∧ n ≤ 102 then some (n - 87)
  else if 65 ≤ n ∧ n ≤ 70 then some (n - 55)
  else none

/-- The character a JSON escape of two characters stands for, given the
character after the backslash. -/
def unescape (e : Char) : Option Char :=
  if e.toNat = 34 then some (Char.ofNat 34)
  else if e.toNat = 92 then some (Char.ofNat 92)
  else if e = '/' then some '/'
  else if e = 'b' then some (Char.ofNat 8)
  else if e = 'f' then some (Char.ofNat 12)
  else if e = 'n' then some (Char.ofNat 10)
  else if e = 'r' then some (Char.ofNat 13)
  else if e = 't' then some (Char.ofNat 9)
  else none

/-- The code point of a `\uXXXX` escape, given its four digits; surrogates are
not accepted. -/
def unicodeEscape (a b c d : Char) : Option Char :=
  match hexValue a, hexValue b, hexValue c, hexValue d with
  | some x, some y, some z, some t =>
    let n := ((x * 16 + y) * 16 + z) * 16 + t
    if 55296 ≤ n ∧ n ≤ 57343 then none else some (Char.ofNat n)
  | _, _, _, _ => none

/-- A JSON string read after its opening quote (RFC 8259): the characters it
denotes and the text left after its closing quote. An unescaped quote closes
the string, a backslash starts an escape, and a control character is not
allowed. -/
def jsonStringTail : List Char → Option (List Char × List Char)
  | [] => none
  | c :: cs =>
    if c.toNat = 34 then some ([], cs)
    else if c.toNat = 92 then
      match cs with
      | [] => none
      | e :: cs2 =>
        if e = 'u' then
          match cs2 with
          | h1 :: h2 :: h3 :: h4 :: cs3 =>
            match unicodeEscape h1 h2 h3 h4 with
            | some x => (jsonStringTail cs3).map (fun r => (x :: r.1, r.2))
            | none => none
          | _ => none
        else
          match unescape e with
          | some x => (jsonStringTail cs2).map (fun r => (x :: r.1, r.2))
          | none => none
    else if c.toNat < 32 then none
    else (jsonStringTail cs).map (fun r => (c :: r.1, r.2))

/-- The text `s` without the leading text `pre`, when it starts with it. -/
def dropPrefix : List Char → List Char → Option (List Char)
  | [], s => some s
  | _ :: _, [] => none
  | p :: ps, c :: cs => if p = c then dropPrefix ps cs else none

/-- The white space of JSON. -/
def isJsonSpace (c : Char) : Bool :=
  c.toNat = 32 || c.toNat = 10 || c.toNat = 13 || c.toNat = 9

/-- The one global message of a response envelope written in the layout of
`errJsTmpl`: the document has to be an object with the member `msgs`, itself an
object whose member `global` is an array of one string, and the member `data`
with the value null, followed by white space only; the result is the string the
array holds. -/
def decodeGlobalMsg (doc : String) : Option String :=
  match dropPrefix "\x7b\"msgs\":\x7b\"global\":[\"".data doc.data with
  | none => none
  | some rest =>
    match jsonStringTail rest with
    | none => none
    | some (s, rest2) =>
      match dropPrefix "]\x7d,\"data\":null\x7d".data rest2 with
      | none => none
      | some ws => if ws.all isJsonSpace then some (String.mk s) else none

/-! ## More sample worlds -/

/-- A response writer nothing has been written to. -/
def freshWriter : ResponseWriter := { header := [], status := none, body := [] }

/-- A request without session values and context values, with the route
variable `id` set to `id`, an untouched response writer and an empty log of
database calls. -/
def sampleRequest (id : String) : World (Env (Nat × List DbCall)) :=
  { session := fun _ => none, context := fun _ => none,
    ext := { w := freshWriter, body := [], vars := fun k => if k = "id" then id else "",
             rest := (0, []) } }

/-- The request `sampleRequest id` with `v` stored in the session under `"user"`. -/
def sampleRequestOf (id : String) (v : Value) : World (Env (Nat × List DbCall)) :=
  { sampleRequest id with session := fun k => if k = "user" then some v else none }

/-- A database whose functions succeed and count their calls. -/
def sampleDb : Db Nat where
  InsertUser := fun r user =>
    (({ user with Id := 100 }, none), { r with ext := { r.ext with rest := r.ext.rest + 1 } })
  UpdateUser := fun r user =>
    ((user, none), { r with ext := { r.ext with rest := r.ext.rest + 1 } })
  DelUser := fun r _ => (none, { r with ext := { r.ext with rest := r.ext.rest + 1 } })

/-- The package variables as four distinct values of foreign types. -/
def sampleGlobals : Globals :=
  { db := Value.foreign 1, tmpl := Value.foreign 2, smtpConf := Value.foreign 3,
    systemConf := Value.foreign 4 }

/-- A decoder that fails on every body with the given error text. -/
def failingDecode (e : String) : List Byte → params → Except String params :=
  fun _ _ => Except.error e

/-- An action of a handler that adds `k` to the first component of the rest of
the world and returns `r`. -/
def sampleEnvAction {τ : Type} (k : Nat) (r : Result) : actionFunc (Env (Nat × τ)) :=
  fun w _ =>
    (r, { w with ext := { w.ext with rest := (w.ext.rest.1 + k, w.ext.rest.2) } })

/-- A decoder that succeeds on every body and fills the params with `p1`. -/
def constDecode (p1 : params) : List Byte → params → Except String params :=
  fun _ _ => Except.ok p1

/-! ## Package mizumanju: validateUser of validator.go -/

/-- The function `validateUser` of `validator.go`. `ParseAddress` stands for
`mail.ParseAddress`: the error text when the address does not parse, else the
field `Address` of the parsed address. Marshalling a `Response` whose data is
nil cannot fail, so the branch for a marshalling error is left out. The
assignment `u.Email = addr.Address` changes the record behind the params
pointer, which is neither part of the returned pair nor of the world; it is
given by `validateUserParams`. -/
def validateUser {σ : Type} (ParseAddress : String → Except String String) : actionFunc σ :=
  fun w p =>
    match p with
    | params.user u =>
      let m0 : StrMap := []
      let m1 := if u.Id = 0 ∧ u.AuthId = "" then mapSet m0 "authId" (some ["Auth ID is required."])
        else m0
      let m2 := if u.Name = "" then mapSet m1 "name" (some ["Name is required."]) else m1
      let m3 := if u.Role = "" then mapSet m2 "role" (some ["Role is required."])
        else if u.Role ≠ admin ∧ u.Role ≠ editor then mapSet m2 "role" (some ["Role is invalid."])
        else m2
      let m4 := if u.Email = "" then mapSet m3 "email" (some ["Email is required."])
        else
          match ParseAddress u.Email with
          | Except.error e => mapSet m3 "email" (some [e])
          | Except.ok _ => m3
      if m4.length > 0 then
        ((some (utf8 (jsonMarshalResponse (NewResponse (MsgsArg.map (some m4)) none))),
          some GoError.ErrValidation), w)
      else ((none, none), w)
    | _ => ((none, some (GoError.other ("Expected *User, but actual is " ++ p.goType))), w)

/-- The params as `validateUser` leaves them: the field `Email` of a user record
is replaced by the parsed address when it is non-empty and parses. -/
def validateUserParams (ParseAddress : String → Except String String) : params → params
  | params.user u =>
    if u.Email = "" then params.user u
    else
      match ParseAddress u.Email with
      | Except.error _ => params.user u
      | Except.ok a => params.user { u with Email := a }
  | p => p

/-- Following the words of the claim, not the source: the message for the
field `authId` of a user record, if the field fails. -/
def authIdMessage (u : User) : Option String :=
  if u.Id = 0 ∧ u.AuthId = "" then some "Auth ID is required." else none

/-- Following the words of the claim, not the source: the message for the
field `name` of a user record, if the field fails. -/
def nameMessage (u : User) : Option String :=
  if u.Name = "" then some "Name is required." else none

/-- Following the words of the claim, not the source: the message for the
field `role` of a user record, if the field fails: one message when it is
empty, another when it is neither admin nor editor. -/
def roleMessage (u : User) : Option String :=
  if u.Role = "" then some "Role is required."
  else if u.Role = "admin" ∨ u.Role = "editor" then none
  else some "Role is invalid."

/-- Following the words of the claim, not the source: the message for the
field `email` of a user record, if the field fails: a fixed message when it is
empty, the error text of the parser when it does not parse. -/
def emailMessage (ParseAddress : String → Except String String) (u : User) : Option String :=
  if u.Email = "" then some "Email is required."
  else
    match ParseAddress u.Email with
    | Except.error e => some e
    | Except.ok _ => none

/-- Following the words of the claim, not the source: the failing fields of a
user record with their messages, in the order of the keys. -/
def failingUserFields (ParseAddress : String → Except String String) (u : User) :
    List (String × String) :=
  [("authId", authIdMessage u), ("email", emailMessage ParseAddress u),
   ("name", nameMessage u), ("role", roleMessage u)].filterMap
    (fun e => e.2.map (fun msg => (e.1, msg)))

/-- Following the words of the claim, not the source: the text of the response
envelope that holds one list of one message per given field and the data
null. -/
def envelopeOfFields (fields : List (String × String)) : String :=
  String.mk ("\x7b\"msgs\":\x7b".data ++
    commaSep (fields.map (fun e => jsonString e.1 ++ ':' :: '[' :: (jsonString e.2 ++ [']'])))
    ++ "\x7d,\"data\":null\x7d".data)

/-! ## Package mizumanju: SaveImage and GetImage of db.go -/

/-- The function `SaveImage`, on the package variable `images`, with `now` the
value of `time.Now().Unix()` read by `Set`. `DecodeString` stands for
`base64.StdEncoding.DecodeString`: the decoded bytes and the error (with an
error come the bytes decoded before it). The result pairs the returned error
with the image map after the call. -/
def SaveImage (DecodeString : String → Bytes × Error) (images : imgmap.ImgMap) (now : Int)
    (userId : Int) (image : String) : Error × imgmap.ImgMap :=
  let out := DecodeString image
  if out.2 ≠ none then (out.2, images)
  else (none, images.Set now userId out.1)

/-- The function `GetImage`, on the package variable `images`, with `now` the
value of `time.Now().Unix()` read by `Get`. -/
def GetImage (noimage : List Byte) (images : imgmap.ImgMap) (now : Int) (userId : Int) :
    (Bytes × Error) × imgmap.ImgMap :=
  images.Get noimage now userId

/-- The value of a character of the standard base64 alphabet. -/
def base64Value (c : Char) : Option Nat :=
  let n := c.toNat
  if 65 ≤ n ∧ n ≤ 90 then some (n - 65)
  else if 97 ≤ n ∧ n ≤ 122 then some (n - 71)
  else if 48 ≤ n ∧ n ≤ 57 then some (n + 4)
  else if n = 43 then some 62
  else if n = 47 then some 63
  else none

/-- The bytes of a padded base64 text without line breaks, four characters at
a time; `none` when the text is malformed. -/
def base64Quanta : List Char → Option (List Byte)
  | [] => some []
  | a :: b :: c :: d :: rest =>
    match base64Value a, base64Value b with
    | some x, some y =>
      if c = '=' then
        if d = '=' ∧ rest = [] then some [Fin.ofNat (x * 4 + y / 16)] else none
      else
        match base64Value c with
        | some z =>
          if d = '=' then
            if rest = [] then
              some [Fin.ofNat (x * 4 + y / 16), Fin.ofNat (y % 16 * 16 + z / 4)]
            else none
          else
            match base64Value d with
            | some t =>
              (base64Quanta rest).map (fun bs =>
                Fin.ofNat (x * 4 + y / 16) :: Fin.ofNat (y % 16 * 16 + z / 4) ::
                  Fin.ofNat (z % 4 * 64 + t) :: bs)
            | none => none
        | none => none
    | _, _ => none
  | _ => none

/-- A decoder of the standard base64 alphabet with padding that skips line
breaks, as a sample for `DecodeString`. -/
def sampleDecodeString (s : String) : Bytes × Error :=
  match base64Quanta (s.data.filter (fun c => c.toNat ≠ 10 ∧ c.toNat ≠ 13)) with
  | some bs => (some bs, none)
  | none => (some [], some (GoError.other "illegal base64 data"))

/-- A parser of mail addresses that accepts the texts holding an at sign and
returns them as they are, as a sample for `ParseAddress`. -/
def sampleParseAddress (s : String) : Except String String :=
  if s.data.any (fun c => c = '@') then Except.ok s else Except.error "mail: missing @"

/-- The assignment `m[k] = []string{msg}` when there is a message `msg`, and no
change of the map when there is none. -/
def setMessage (m : StrMap) (k : String) (msg : Option String) : StrMap :=
  match msg with
  | some x => mapSet m k (some [x])
  | none => m

/-- A user record failing every check of `validateUser`: no id and no auth id,
no name, an unknown role, and an email without an at sign. -/
def sampleBadUser : User :=
  { Id := 0, Name := "", VoiceChatID := "", Hide := false, Image := "", Role := "root",
    AuthId := "", DeleteFlag := false, Email := "x", OrderNo := 0, Created := 0 }

/-- A request to the login route whose body is the text `{"a" "b"}`, which is
not JSON: after the key `"a"` a colon has to follow. -/
def sampleLoginRequest : World (Env (Nat × List DbCall)) :=
  { session := fun _ => none, context := fun _ => none,
    ext := { w := freshWriter, body := utf8 "\x7b\"a\" \"b\"\x7d", vars := fun _ => "",
             rest := (0, []) } }

/-- The error text with which `encoding/json` refuses the body of
`sampleLoginRequest`; it quotes the offending character, a double quote. -/
def sampleDecodeErrorText : String := "invalid character \x27\"\x27 after object key"

/-! ## Properties of the image cache -/

namespace imgmap

theorem wrapInt64_of_isInt64 {x : Int} (h : isInt64 x) : wrapInt64 x = x := by
  unfold isInt64 at h
  unfold wrapInt64
  omega

theorem Asset_noimage (noimage : List Byte) :
    Asset noimage "noimage.png" = (some noimage, none) := by
  simp [Asset]

theorem Get_snd (noimage : List Byte) (images : ImgMap) (now key : Int) :
    (images.Get noimage now key).2 = images := by
  unfold ImgMap.Get
  split
  · split <;> rfl
  · rfl

theorem step_m_of_not_writes (noimage : List Byte) (images : ImgMap) (c : Call) (k : Int)
    (h : c.writes k = false) : (step noimage images c).m k = images.m k := by
  cases c with
  | set now key imgdata =>
    have hk : ¬ k = key := by
      intro e
      simp [Call.writes, e] at h
    simp [step, ImgMap.Set, hk]
  | get now key => simp [step, Get_snd]

theorem run_m_of_not_writes (noimage : List Byte) (calls : List Call) (k : Int) :
    ∀ images : ImgMap, (∀ c ∈ calls, c.writes k = false) →
      (run noimage images calls).m k = images.m k := by
  induction calls with
  | nil => intro images _; rfl
  | cons c rest ih =>
    intro images h
    have h1 : c.writes k = false := h c (List.mem_cons_self _ _)
    have h2 : ∀ d ∈ rest, d.writes k = false := fun d hd => h d (List.mem_cons_of_mem _ hd)
    show (run noimage (step noimage images c) rest).m k = images.m k
    rw [ih _ h2, step_m_of_not_writes noimage images c k h1]

/-- C1 (as amended): after `Set` stored the blob `b` for owner `k` at clock reading
`t`, and after any sequence of further calls none of which is a `Set` for `k`, a
`Get` for `k` at clock reading `t'` with `0 ≤ t' - t < 30` returns exactly `b` and a
nil error (`t'` being a clock reading whose `t' - 30` is an `int64`). -/
theorem Get_after_Set_fresh (noimage : List Byte) (images : ImgMap) (k : Int) (b : Bytes)
    (t t' : Int) (calls : List Call)
    (hcalls : ∀ c ∈ calls, c.writes k = false)
    (h0 : 0 ≤ t' - t) (h30 : t' - t < 30)
    (hlo : -(2 ^ 63) + 30 ≤ t') (hhi : t' < 2 ^ 63) :
    ((run noimage (images.Set t k b) calls).Get noimage t' k).1 = (b, none) := by
  have hm : (run noimage (images.Set t k b) calls).m k = some { data := b, timestamp := t } := by
    rw [run_m_of_not_writes noimage calls k _ hcalls]
    simp [ImgMap.Set]
  have hw : wrapInt64 (t' - 30) = t' - 30 :=
    wrapInt64_of_isInt64 (by unfold isInt64; omega)
  unfold ImgMap.Get
  rw [hm]
  have hgt : t > t' - 30 := by omega
  simp [hw, hgt]

/-- Witness of `Get_after_Set_fresh`: a `Set` at time 100, a `Set` for another
owner and a `Get` in between, and a `Get` 29 seconds later. -/
theorem Get_after_Set_fresh_witness :
    ((run [] (New.Set 100 1 (some [7])) [Call.set 110 2 (some [9]), Call.get 120 1]).Get
      [] 129 1).1 = (some [7], none) :=
  Get_after_Set_fresh [] New 1 (some [7]) 100 129 [Call.set 110 2 (some [9]), Call.get 120 1]
    (by decide) (by decide) (by decide) (by decide) (by decide)

/-- C1 (as stated) fails at an age of exactly 30 seconds: the blob set at clock
reading 0 is not returned by a `Get` at clock reading 30, which returns the
placeholder instead. -/
theorem Get_after_Set_at_30_counterexample :
    (0 : Int) ≤ 30 - 0 ∧ (30 : Int) - 0 ≤ 30 ∧
    ((New.Set 0 1 (some [7])).Get [] 30 1).1 = (some [], none) ∧
    ((New.Set 0 1 (some [7])).Get [] 30 1).1 ≠ (some [7], none) := by
  decide

/-- C2: for an owner without an entry in the map, `Get` returns the placeholder
payload (what `Asset` yields for `noimage.png`) and a nil error, at every clock
reading. -/
theorem Get_absent (noimage : List Byte) (images : ImgMap) (now key : Int)
    (h : images.m key = none) :
    (images.Get noimage now key).1 = Asset noimage "noimage.png" ∧
    (images.Get noimage now key).1 = (some noimage, none) := by
  unfold ImgMap.Get
  rw [h]
  exact ⟨rfl, Asset_noimage noimage⟩

/-- Witness of `Get_absent`: owner 5 in a map holding only owner 1. -/
theorem Get_absent_witness :
    ((New.Set 100 1 (some [7])).Get [0, 1] 100 5).1 = Asset [0, 1] "noimage.png" ∧
    ((New.Set 100 1 (some [7])).Get [0, 1] 100 5).1 = (some [0, 1], none) :=
  Get_absent [0, 1] (New.Set 100 1 (some [7])) 100 5 (by decide)

/-- C3: for an owner whose entry is more than 30 seconds old, `Get` returns the
placeholder payload and a nil error whatever bytes are stored, and the map after
the call is the map before it: the stale entry is still there with its bytes and
timestamp, and so is every other entry. -/
theorem Get_stale (noimage : List Byte) (images : ImgMap) (now key : Int) (i : img)
    (h : images.m key = some i) (hts : isInt64 i.timestamp) (hnow : isInt64 now)
    (hold : now - i.timestamp > 30) :
    (images.Get noimage now key).1 = (some noimage, none) ∧
    (images.Get noimage now key).2 = images ∧
    (images.Get noimage now key).2.m key = some i ∧
    ∀ k : Int, (images.Get noimage now key).2.m k = images.m k := by
  have hw : wrapInt64 (now - 30) = now - 30 :=
    wrapInt64_of_isInt64 (by unfold isInt64 at *; omega)
  have hle : ¬ i.timestamp > now - 30 := by omega
  refine ⟨?_, Get_snd _ _ _ _, ?_, ?_⟩
  · unfold ImgMap.Get
    rw [h]
    simp [hw, hle, Asset_noimage]
  · rw [Get_snd, h]
  · intro k
    rw [Get_snd]

/-- Witness of `Get_stale`: an entry stored at time 100 and read at time 131. -/
theorem Get_stale_witness :
    ((New.Set 100 1 (some [7])).Get [0, 1] 131 1).1 = (some [0, 1], none) ∧
    ((New.Set 100 1 (some [7])).Get [0, 1] 131 1).2 = New.Set 100 1 (some [7]) ∧
    ((New.Set 100 1 (some [7])).Get [0, 1] 131 1).2.m 1 = some ⟨some [7], 100⟩ ∧
    ∀ k : Int, ((New.Set 100 1 (some [7])).Get [0, 1] 131 1).2.m k =
      (New.Set 100 1 (some [7])).m k :=
  Get_stale [0, 1] (New.Set 100 1 (some [7])) 131 1 ⟨some [7], 100⟩
    (by decide) (by decide) (by decide) (by decide)

/-- C4: `Set(k, b)` at clock reading `now` yields the map in which `k` is bound to
the one entry with data `b` and timestamp `now`, whatever `k` was bound to
before, and in which every other owner is bound as before. -/
theorem Set_spec (images : ImgMap) (now k : Int) (b : Bytes) :
    (images.Set now k b).m k = some { data := b, timestamp := now } ∧
    ∀ k2 : Int, k2 ≠ k → (images.Set now k b).m k2 = images.m k2 := by
  constructor
  · simp [ImgMap.Set]
  · intro k2 hk
    simp [ImgMap.Set, hk]

/-- Witness of `Set_spec`: a second `Set` for owner 1 replaces the first entry
and leaves the entry of owner 2 alone. -/
theorem Set_spec_witness :
    (((New.Set 100 1 (some [7])).Set 101 2 (some [8])).Set 105 1 none).m 1
      = some ⟨none, 105⟩ ∧
    (((New.Set 100 1 (some [7])).Set 101 2 (some [8])).Set 105 1 none).m 2
      = ((New.Set 100 1 (some [7])).Set 101 2 (some [8])).m 2 :=
  ⟨(Set_spec ((New.Set 100 1 (some [7])).Set 101 2 (some [8])) 105 1 none).1,
   (Set_spec ((New.Set 100 1 (some [7])).Set 101 2 (some [8])) 105 1 none).2 2 (by decide)⟩

end imgmap

/-! ## Properties of the logged actions -/

@[simp]
theorem World.unlog_withExt {σ : Type} (w : World σ) (l : List Invocation) :
    (w.withExt (w.ext, l)).unlog = w := rfl

@[simp]
theorem World.withExt_unlog {σ : Type} (w : World (σ × List Invocation)) :
    w.unlog.withExt (w.unlog.ext, w.log) = w := rfl

@[simp]
theorem World.unlog_context {σ : Type} (w : World (σ × List Invocation)) :
    w.unlog.context = w.context := rfl

@[simp]
theorem World.unlog_session {σ : Type} (w : World (σ × List Invocation)) :
    w.unlog.session = w.session := rfl

@[simp]
theorem World.log_withExt {σ τ : Type} (w : World τ) (e : σ) (l : List Invocation) :
    (w.withExt (e, l)).log = l := rfl

@[simp]
theorem World.unlog_fresh {σ : Type} (w : World σ) : w.fresh.unlog = w := rfl

@[simp]
theorem World.log_fresh {σ : Type} (w : World σ) : w.fresh.log = [] := rfl

theorem traced_eq {σ : Type} (i : Nat) (fn : actionFunc σ) (w : World (σ × List Invocation))
    (p : params) :
    traced i fn w p = ((fn w.unlog p).1, (fn w.unlog p).2.withExt ((fn w.unlog p).2.ext,
      w.log ++ [{ idx := i, p := p, loginUser := w.context userkey, ret := (fn w.unlog p).1 }])) :=
  rfl

/-- Logging does not change what `makeOneLoop` computes, and the log it leaves is
the old log followed by `invocationsFrom`. -/
theorem makeOneLoop_tracedFrom {σ : Type} (fns : List (actionFunc σ)) :
    ∀ (n : Nat) (acc : Result) (w : World (σ × List Invocation)) (p : params),
      makeOneLoop (tracedFrom n fns) acc w p =
        ((makeOneLoop fns acc w.unlog p).1,
         (makeOneLoop fns acc w.unlog p).2.withExt ((makeOneLoop fns acc w.unlog p).2.ext,
           w.log ++ invocationsFrom n fns w.unlog p)) := by
  induction fns with
  | nil =>
    intro n acc w p
    simp [makeOneLoop, tracedFrom, invocationsFrom]
  | cons fn rest ih =>
    intro n acc w p
    simp only [tracedFrom, makeOneLoop, invocationsFrom, traced_eq]
    by_cases hs : stops (fn w.unlog p).1 = true
    · simp [hs]
    · simp only [hs, if_false]
      rw [ih]
      simp

theorem makeOne_tracedFrom {σ : Type} (fns : List (actionFunc σ)) (w : World σ) (p : params) :
    makeOne (tracedFrom 0 fns) w.fresh p =
      ((makeOne fns w p).1,
       (makeOne fns w p).2.withExt ((makeOne fns w p).2.ext, invocationsFrom 0 fns w p)) := by
  unfold makeOne
  rw [makeOneLoop_tracedFrom]
  simp

theorem makeOne_log {σ : Type} (fns : List (actionFunc σ)) (w : World σ) (p : params) :
    (makeOne (tracedFrom 0 fns) w.fresh p).2.log = invocationsFrom 0 fns w p := by
  rw [makeOne_tracedFrom]
  rfl

theorem stops_eq_false_iff (r : Result) : stops r = false ↔ r = (none, none) := by
  obtain ⟨b, e⟩ := r
  cases b <;> cases e <;> simp [stops]

theorem invocationsFrom_idx_ge {σ : Type} (fns : List (actionFunc σ)) :
    ∀ (n : Nat) (w : World σ) (p : params), ∀ c ∈ invocationsFrom n fns w p, n ≤ c.idx := by
  induction fns with
  | nil => intro n w p c hc; simp [invocationsFrom] at hc
  | cons fn rest ih =>
    intro n w p c hc
    simp only [invocationsFrom, List.mem_cons] at hc
    rcases hc with rfl | hc
    · exact Nat.le_refl _
    · by_cases hs : stops (fn w p).1 = true
      · simp [hs] at hc
      · simp only [hs, if_false] at hc
        exact Nat.le_of_succ_le (ih _ _ _ c hc)

theorem invocationsFrom_map_idx {σ : Type} (fns : List (actionFunc σ)) :
    ∀ (n : Nat) (w : World σ) (p : params),
      (invocationsFrom n fns w p).map Invocation.idx
        = List.range' n (invocationsFrom n fns w p).length := by
  induction fns with
  | nil => intro n w p; simp [invocationsFrom]
  | cons fn rest ih =>
    intro n w p
    by_cases hs : stops (fn w p).1 = true
    · simp [invocationsFrom, hs, List.range']
    · simp [invocationsFrom, hs, List.range', ih]

theorem invocationsFrom_length_le {σ : Type} (fns : List (actionFunc σ)) :
    ∀ (n : Nat) (w : World σ) (p : params),
      (invocationsFrom n fns w p).length ≤ fns.length := by
  induction fns with
  | nil => intro n w p; simp [invocationsFrom]
  | cons fn rest ih =>
    intro n w p
    by_cases hs : stops (fn w p).1 = true
    · simp [invocationsFrom, hs]
    · simpa [invocationsFrom, hs] using ih (n + 1) (fn w p).2 p

theorem invocationsFrom_none_after_stop {σ : Type} (fns : List (actionFunc σ)) :
    ∀ (n : Nat) (w : World σ) (p : params), ∀ c ∈ invocationsFrom n fns w p,
      stops c.ret = true → ∀ d ∈ invocationsFrom n fns w p, d.idx ≤ c.idx := by
  induction fns with
  | nil => intro n w p c hc; simp [invocationsFrom] at hc
  | cons fn rest ih =>
    intro n w p c hc hstop d hd
    by_cases hs : stops (fn w p).1 = true
    · simp only [invocationsFrom, hs, if_true, List.mem_singleton] at hc hd
      rw [hc, hd]
    · simp only [invocationsFrom, hs, if_false, List.mem_cons] at hc hd
      rcases hc with rfl | hc
      · exact absurd hstop hs
      · rcases hd with rfl | hd
        · exact Nat.le_of_succ_le (invocationsFrom_idx_ge rest _ _ _ c hc)
        · exact ih _ _ _ c hc hstop d hd

theorem invocationsFrom_length_of_no_stop {σ : Type} (fns : List (actionFunc σ)) :
    ∀ (n : Nat) (w : World σ) (p : params),
      (∀ c ∈ invocationsFrom n fns w p, stops c.ret = false) →
      (invocationsFrom n fns w p).length = fns.length := by
  induction fns with
  | nil => intro n w p _; simp [invocationsFrom]
  | cons fn rest ih =>
    intro n w p h
    have h0 : stops (fn w p).1 = false := by
      have := h { idx := n, p := p, loginUser := w.context userkey, ret := (fn w p).1 }
        (by simp [invocationsFrom])
      exact this
    have hrest : ∀ c ∈ invocationsFrom (n + 1) rest (fn w p).2 p, stops c.ret = false := by
      intro c hc
      exact h c (by simp [invocationsFrom, h0, hc])
    simp [invocationsFrom, h0, ih _ _ _ hrest]

theorem makeOneLoop_fst {σ : Type} (fns : List (actionFunc σ)) :
    ∀ (n : Nat) (acc : Result) (w : World σ) (p : params), stops acc = false →
      (makeOneLoop fns acc w p).1 =
        (((invocationsFrom n fns w p).find? (fun c => stops c.ret)).map Invocation.ret).getD
          (none, none) := by
  induction fns with
  | nil =>
    intro n acc w p hacc
    simp [makeOneLoop, invocationsFrom, (stops_eq_false_iff acc).1 hacc]
  | cons fn rest ih =>
    intro n acc w p _
    by_cases hs : stops (fn w p).1 = true
    · simp [makeOneLoop, invocationsFrom, hs]
    · have hs2 : stops (fn w p).1 = false := by simpa using hs
      have hrec := ih (n + 1) (fn w p).1 (fn w p).2 p hs2
      simp [makeOneLoop, invocationsFrom, hs2, List.find?, hrec]

/-! ## Properties of makeOne -/

/-- C5 (as amended): the action built by `makeOne` returns the pair of the first
invocation, in list order, whose bytes are non-nil or whose error is non-nil; if
there is none, every action of the list was invoked and the result is
`(nil, nil)`. Logging the invocations does not change the result. In particular
for `[A, B]` where `A` returns `(nil, nil)`, the composed action is `B` run after
`A`. -/
theorem makeOne_returns_first_stop {σ : Type} (fns : List (actionFunc σ)) (w : World σ)
    (p : params) :
    (makeOne (tracedFrom 0 fns) w.fresh p).1 = (makeOne fns w p).1 ∧
    (makeOne fns w p).1 =
      ((((makeOne (tracedFrom 0 fns) w.fresh p).2.log.find? (fun c => stops c.ret)).map
        Invocation.ret).getD (none, none)) ∧
    ((∀ c ∈ (makeOne (tracedFrom 0 fns) w.fresh p).2.log, stops c.ret = false) →
      (makeOne (tracedFrom 0 fns) w.fresh p).2.log.map Invocation.idx
        = List.range fns.length) ∧
    (∀ A B : actionFunc σ, (A w p).1 = (none, none) → makeOne [A, B] w p = B (A w p).2 p) := by
  refine ⟨?_, ?_, ?_, ?_⟩
  · rw [makeOne_tracedFrom]
  · rw [makeOne_log]
    exact makeOneLoop_fst fns 0 (none, none) w p rfl
  · rw [makeOne_log]
    intro h
    rw [invocationsFrom_map_idx, invocationsFrom_length_of_no_stop fns 0 w p h,
      List.range_eq_range']
  · intro A B hA
    have hs : stops (A w p).1 = false := (stops_eq_false_iff _).2 hA
    by_cases hB : stops (B (A w p).2 p).1 = true
    · simp [makeOne, makeOneLoop, hs, hB]
    · simp [makeOne, makeOneLoop, hs, hB]

/-- Witness of `makeOne_returns_first_stop`: three actions, the first returning
`(nil, nil)`, the second a body, the third never reached; and the pair `[A, B]`
with `A` returning `(nil, nil)`. -/
theorem makeOne_returns_first_stop_witness :
    (makeOne [sampleAction 1 (none, none), sampleAction 2 (some [7], none),
      sampleAction 4 (none, some GoError.ErrNotFound)] sampleWorld params.nil).1
      = (some [7], none) ∧
    makeOne [sampleAction 1 (none, none), sampleAction 2 (some [7], none)]
      sampleWorld params.nil
      = sampleAction 2 (some [7], none) (sampleAction 1 (none, none) sampleWorld params.nil).2
          params.nil ∧
    (makeOne (tracedFrom 0 [sampleAction 1 (none, none), sampleAction 2 (none, none)])
      sampleWorld.fresh params.nil).2.log.map Invocation.idx = List.range 2 :=
  ⟨(makeOne_returns_first_stop [sampleAction 1 (none, none), sampleAction 2 (some [7], none),
      sampleAction 4 (none, some GoError.ErrNotFound)] sampleWorld params.nil).2.1.trans
      (by decide),
   (makeOne_returns_first_stop [sampleAction 1 (none, none), sampleAction 2 (some [7], none)]
      sampleWorld params.nil).2.2.2
      (sampleAction 1 (none, none)) (sampleAction 2 (some [7], none)) rfl,
   (makeOne_returns_first_stop [sampleAction 1 (none, none), sampleAction 2 (none, none)]
      sampleWorld params.nil).2.2.1 (by decide)⟩

/-- C5 (as stated) fails for an action returning an empty, non-nil slice: in
`[A, B]` where `A` returns `([]byte{}, nil)` and `B` returns a one-byte body, the
result of `A` is empty and its error nil, the result of `B` is the first
non-empty one, and the composed action returns the pair of `A`, not of `B`. -/
theorem makeOne_empty_slice_counterexample :
    len (sampleAction 1 (some [], none) sampleWorld params.nil).1.1 = 0 ∧
    (sampleAction 1 (some [], none) sampleWorld params.nil).1.2 = none ∧
    0 < len (sampleAction 2 (some [7], none)
      (sampleAction 1 (some [], none) sampleWorld params.nil).2 params.nil).1.1 ∧
    (makeOne [sampleAction 1 (some [], none), sampleAction 2 (some [7], none)]
      sampleWorld params.nil).1 = (some [], none) ∧
    (makeOne [sampleAction 1 (some [], none), sampleAction 2 (some [7], none)]
      sampleWorld params.nil).1 ≠
      (sampleAction 2 (some [7], none)
        (sampleAction 1 (some [], none) sampleWorld params.nil).2 params.nil).1 := by
  decide

/-- C6: in the action built by `makeOne` the invocations happen in list order,
each action at most once (the logged positions are `0, 1, ..., n - 1` for some
`n` not above the length of the list), and once an invocation has returned
non-nil bytes or a non-nil error no action at a later position is invoked. For
`[A, B]` where `A` returns non-nil bytes or a non-nil error, the only invocation
is that of `A`, and the composed action is `A`: `B` is never invoked. -/
theorem makeOne_invocations {σ : Type} (fns : List (actionFunc σ)) (w : World σ)
    (p : params) :
    (makeOne (tracedFrom 0 fns) w.fresh p).2.log.map Invocation.idx
      = List.range (makeOne (tracedFrom 0 fns) w.fresh p).2.log.length ∧
    (makeOne (tracedFrom 0 fns) w.fresh p).2.log.length ≤ fns.length ∧
    (∀ c ∈ (makeOne (tracedFrom 0 fns) w.fresh p).2.log, stops c.ret = true →
      ∀ d ∈ (makeOne (tracedFrom 0 fns) w.fresh p).2.log, d.idx ≤ c.idx) ∧
    (∀ A B : actionFunc σ, stops (A w p).1 = true →
      (makeOne (tracedFrom 0 [A, B]) w.fresh p).2.log
        = [{ idx := 0, p := p, loginUser := w.context userkey, ret := (A w p).1 }] ∧
      makeOne [A, B] w p = A w p) := by
  refine ⟨?_, ?_, ?_, ?_⟩
  · rw [makeOne_log, invocationsFrom_map_idx, List.range_eq_range']
  · rw [makeOne_log]
    exact invocationsFrom_length_le fns 0 w p
  · rw [makeOne_log]
    exact invocationsFrom_none_after_stop fns 0 w p
  · intro A B hA
    constructor
    · rw [makeOne_log]
      simp [invocationsFrom, hA]
    · simp [makeOne, makeOneLoop, hA]

/-- Witness of `makeOne_invocations`: a failing first action (a validation
error) keeps the second action from running; the counter shows only the effect
of the first. -/
theorem makeOne_invocations_witness :
    ((makeOne (tracedFrom 0 [sampleAction 1 (some [7], some GoError.ErrValidation),
        sampleAction 2 (some [8], none)]) sampleWorld.fresh params.nil).2.log
      = [{ idx := 0, p := params.nil, loginUser := sampleWorld.context userkey,
           ret := (some [7], some GoError.ErrValidation) }] ∧
    makeOne [sampleAction 1 (some [7], some GoError.ErrValidation),
        sampleAction 2 (some [8], none)] sampleWorld params.nil
      = sampleAction 1 (some [7], some GoError.ErrValidation) sampleWorld params.nil) ∧
    (∀ d ∈ (makeOne (tracedFrom 0 [sampleAction 1 (none, none),
        sampleAction 2 (some [8], none), sampleAction 4 (some [9], none)])
        sampleWorld.fresh params.nil).2.log, d.idx ≤ 1) :=
  ⟨(makeOne_invocations [sampleAction 1 (some [7], some GoError.ErrValidation),
      sampleAction 2 (some [8], none)] sampleWorld params.nil).2.2.2
      (sampleAction 1 (some [7], some GoError.ErrValidation)) (sampleAction 2 (some [8], none))
      (by decide),
   (makeOne_invocations [sampleAction 1 (none, none), sampleAction 2 (some [8], none),
      sampleAction 4 (some [9], none)] sampleWorld params.nil).2.2.1
      { idx := 1, p := params.nil, loginUser := none, ret := (some [8], none) }
      (by decide) (by decide)⟩

/-! ## Properties of makeAuthedAction -/

theorem inArray_some_iff (l : List String) (s : String) :
    inArray (some l) s = true ↔ s ∈ l := by
  unfold inArray
  induction l with
  | nil => simp [inArrayRange]
  | cons e rest ih =>
    by_cases h : e = s
    · simp [inArrayRange, h]
    · have h2 : ¬ s = e := fun e2 => h e2.symm
      simp [inArrayRange, h, h2, ih]

/-- The accepting branch of `makeAuthedAction`. -/
theorem makeAuthedAction_accept {σ : Type} (fn : actionFunc σ) (roles : Slice String)
    (u : User) (w : World σ) (p : params)
    (hu : w.session "user" = some (Value.userPtr u))
    (hr : roles = none ∨ inArray roles u.Role = true) :
    makeAuthedAction fn roles w p = fn (w.contextSet userkey (Value.userPtr u)) p := by
  unfold makeAuthedAction
  simp only [hu]
  rcases hr with h | h
  · simp [h]
  · simp [h]

/-- The branch of `makeAuthedAction` rejecting a role. -/
theorem makeAuthedAction_reject_role {σ : Type} (fn : actionFunc σ) (l : List String)
    (u : User) (w : World σ) (p : params)
    (hu : w.session "user" = some (Value.userPtr u))
    (hr : inArray (some l) u.Role = false) :
    makeAuthedAction fn (some l) w p = ((none, some GoError.ErrUnauthorized), w) := by
  unfold makeAuthedAction
  simp [hu, hr]

/-- The branch of `makeAuthedAction` for a session without a `*User`. -/
theorem makeAuthedAction_no_user {σ : Type} (fn : actionFunc σ) (roles : Slice String)
    (w : World σ) (p : params)
    (hu : ∀ u : User, w.session "user" ≠ some (Value.userPtr u)) :
    makeAuthedAction fn roles w p = ((none, some GoError.ErrUnauthorized), w) := by
  unfold makeAuthedAction
  split
  · next user h => exact absurd h (hu user)
  · rfl

theorem traced_contextSet_fresh {σ : Type} (fn : actionFunc σ) (i : Nat) (w : World σ)
    (k : CtxKey) (v : Value) (p : params) :
    traced i fn (w.fresh.contextSet k v) p =
      ((fn (w.contextSet k v) p).1,
       (fn (w.contextSet k v) p).2.withExt ((fn (w.contextSet k v) p).2.ext,
        [{ idx := i, p := p, loginUser := (w.contextSet k v).context userkey,
           ret := (fn (w.contextSet k v) p).1 }])) := rfl

theorem contextSet_userkey {σ : Type} (w : World σ) (v : Value) :
    (w.contextSet userkey v).context userkey = some v := by
  simp [World.contextSet]

theorem makeAuthedAction_traced_accept {σ : Type} (fn : actionFunc σ) (roles : Slice String)
    (u : User) (w : World σ) (p : params)
    (hu : w.session "user" = some (Value.userPtr u))
    (hr : roles = none ∨ inArray roles u.Role = true) :
    makeAuthedAction (traced 0 fn) roles w.fresh p =
      ((fn (w.contextSet userkey (Value.userPtr u)) p).1,
       (fn (w.contextSet userkey (Value.userPtr u)) p).2.withExt
        ((fn (w.contextSet userkey (Value.userPtr u)) p).2.ext,
         [{ idx := 0, p := p, loginUser := some (Value.userPtr u),
            ret := (fn (w.contextSet userkey (Value.userPtr u)) p).1 }])) := by
  rw [makeAuthedAction_accept (traced 0 fn) roles u w.fresh p hu hr, traced_contextSet_fresh,
    contextSet_userkey]

/-- C7: when the session holds no `*User` under `"user"`, the action built by
`makeAuthedAction` returns `(nil, ErrUnauthorized)` and leaves the world as it
was, for every wrapped action and every allow-list: the wrapped action is not
invoked and the request context, the login-user key included, is unchanged. -/
theorem makeAuthedAction_unauthenticated {σ : Type} (fn : actionFunc σ)
    (roles : Slice String) (w : World σ) (p : params)
    (hu : ∀ u : User, w.session "user" ≠ some (Value.userPtr u)) :
    makeAuthedAction fn roles w p = ((none, some GoError.ErrUnauthorized), w) ∧
    (makeAuthedAction (traced 0 fn) roles w.fresh p).2.log = [] ∧
    (makeAuthedAction (traced 0 fn) roles w.fresh p).2.context = w.context ∧
    (makeAuthedAction fn roles w p).2.context userkey = w.context userkey := by
  have h1 := makeAuthedAction_no_user fn roles w p hu
  have h2 := makeAuthedAction_no_user (traced 0 fn) roles w.fresh p hu
  refine ⟨h1, ?_, ?_, ?_⟩
  · rw [h2]; rfl
  · rw [h2]; rfl
  · rw [h1]

/-- Witness of `makeAuthedAction_unauthenticated`: a session holding a `User` by
value (not a `*User`) under `"user"`, with the allow-list `{admin}`. -/
theorem makeAuthedAction_unauthenticated_witness :
    makeAuthedAction (sampleAction 1 (some [7], none)) (some [admin])
        (sampleSession (Value.userVal (sampleUser 1 admin))) params.nil
      = ((none, some GoError.ErrUnauthorized),
          sampleSession (Value.userVal (sampleUser 1 admin))) ∧
    (makeAuthedAction (traced 0 (sampleAction 1 (some [7], none))) (some [admin])
        (sampleSession (Value.userVal (sampleUser 1 admin))).fresh params.nil).2.log = [] ∧
    (makeAuthedAction (traced 0 (sampleAction 1 (some [7], none))) (some [admin])
        (sampleSession (Value.userVal (sampleUser 1 admin))).fresh params.nil).2.context
      = (sampleSession (Value.userVal (sampleUser 1 admin))).context ∧
    (makeAuthedAction (sampleAction 1 (some [7], none)) (some [admin])
        (sampleSession (Value.userVal (sampleUser 1 admin))) params.nil).2.context userkey
      = (sampleSession (Value.userVal (sampleUser 1 admin))).context userkey :=
  makeAuthedAction_unauthenticated (sampleAction 1 (some [7], none)) (some [admin])
    (sampleSession (Value.userVal (sampleUser 1 admin))) params.nil
    (by intro u; simp [sampleSession])

/-- C8: with an allow-list `l` and an identity `u` in the session, the action
built by `makeAuthedAction` invokes the wrapped action if and only if `u.Role`
is an element of `l` (equality of strings); when it is, the result is that of
the wrapped action run with the identity in the context, and when it is not,
the result is `(nil, ErrUnauthorized)`, the world is unchanged and the wrapped
action is not invoked. There is no hierarchy: `{admin}` rejects the role editor
and accepts the role admin, and `{editor}` rejects the role admin. -/
theorem makeAuthedAction_role_check {σ : Type} (fn : actionFunc σ) (l : List String)
    (u : User) (w : World σ) (p : params)
    (hu : w.session "user" = some (Value.userPtr u)) :
    ((makeAuthedAction (traced 0 fn) (some l) w.fresh p).2.log.length = 1 ↔ u.Role ∈ l) ∧
    (u.Role ∈ l →
      makeAuthedAction fn (some l) w p = fn (w.contextSet userkey (Value.userPtr u)) p) ∧
    (u.Role ∉ l →
      makeAuthedAction fn (some l) w p = ((none, some GoError.ErrUnauthorized), w) ∧
      (makeAuthedAction (traced 0 fn) (some l) w.fresh p).2.log = []) ∧
    (u.Role = editor →
      makeAuthedAction fn (some [admin]) w p = ((none, some GoError.ErrUnauthorized), w)) ∧
    (u.Role = admin →
      makeAuthedAction fn (some [admin]) w p
        = fn (w.contextSet userkey (Value.userPtr u)) p) ∧
    (u.Role = admin →
      makeAuthedAction fn (some [editor]) w p = ((none, some GoError.ErrUnauthorized), w)) := by
  have hin : u.Role ∈ l → inArray (some l) u.Role = true := (inArray_some_iff l u.Role).2
  have hout : u.Role ∉ l → inArray (some l) u.Role = false := by
    intro h
    cases hc : inArray (some l) u.Role with
    | false => rfl
    | true => exact absurd ((inArray_some_iff l u.Role).1 hc) h
  refine ⟨?_, ?_, ?_, ?_, ?_, ?_⟩
  · by_cases hmem : u.Role ∈ l
    · rw [makeAuthedAction_traced_accept fn (some l) u w p hu (Or.inr (hin hmem))]
      simp [hmem, World.log, World.withExt]
    · rw [makeAuthedAction_reject_role (traced 0 fn) l u w.fresh p hu (hout hmem)]
      simp [hmem]
  · intro hmem
    exact makeAuthedAction_accept fn (some l) u w p hu (Or.inr (hin hmem))
  · intro hmem
    refine ⟨makeAuthedAction_reject_role fn l u w p hu (hout hmem), ?_⟩
    rw [makeAuthedAction_reject_role (traced 0 fn) l u w.fresh p hu (hout hmem)]
    rfl
  · intro hrole
    exact makeAuthedAction_reject_role fn [admin] u w p hu (by rw [hrole]; decide)
  · intro hrole
    exact makeAuthedAction_accept fn (some [admin]) u w p hu (Or.inr (by rw [hrole]; decide))
  · intro hrole
    exact makeAuthedAction_reject_role fn [editor] u w p hu (by rw [hrole]; decide)

/-- Witness of `makeAuthedAction_role_check`: the allow-list `{admin}` rejects an
editor and accepts an admin; the allow-list `{editor}` rejects an admin. -/
theorem makeAuthedAction_role_check_witness :
    makeAuthedAction (sampleAction 1 (some [7], none)) (some [admin])
        (sampleSession (Value.userPtr (sampleUser 2 editor))) params.nil
      = ((none, some GoError.ErrUnauthorized),
          sampleSession (Value.userPtr (sampleUser 2 editor))) ∧
    makeAuthedAction (sampleAction 1 (some [7], none)) (some [admin])
        (sampleSession (Value.userPtr (sampleUser 1 admin))) params.nil
      = sampleAction 1 (some [7], none)
          ((sampleSession (Value.userPtr (sampleUser 1 admin))).contextSet userkey
            (Value.userPtr (sampleUser 1 admin))) params.nil ∧
    makeAuthedAction (sampleAction 1 (some [7], none)) (some [editor])
        (sampleSession (Value.userPtr (sampleUser 1 admin))) params.nil
      = ((none, some GoError.ErrUnauthorized),
          sampleSession (Value.userPtr (sampleUser 1 admin))) :=
  ⟨(makeAuthedAction_role_check (sampleAction 1 (some [7], none)) [admin]
      (sampleUser 2 editor) (sampleSession (Value.userPtr (sampleUser 2 editor))) params.nil
      rfl).2.2.2.1 rfl,
   (makeAuthedAction_role_check (sampleAction 1 (some [7], none)) [admin]
      (sampleUser 1 admin) (sampleSession (Value.userPtr (sampleUser 1 admin))) params.nil
      rfl).2.1 (by decide),
   (makeAuthedAction_role_check (sampleAction 1 (some [7], none)) [editor]
      (sampleUser 1 admin) (sampleSession (Value.userPtr (sampleUser 1 admin))) params.nil
      rfl).2.2.1 (by decide) |>.1⟩

/-- C9 (as amended): an action built by `makeAuthedAction` without any role
argument (the allow-list is nil) accepts every identity held in the session,
whatever its role: the wrapped action is invoked, once, with the identity in the
context, and its result is returned. -/
theorem makeAuthedAction_no_roles {σ : Type} (fn : actionFunc σ) (u : User) (w : World σ)
    (p : params) (hu : w.session "user" = some (Value.userPtr u)) :
    makeAuthedAction fn none w p = fn (w.contextSet userkey (Value.userPtr u)) p ∧
    (makeAuthedAction (traced 0 fn) none w.fresh p).2.log.length = 1 := by
  refine ⟨makeAuthedAction_accept fn none u w p hu (Or.inl rfl), ?_⟩
  rw [makeAuthedAction_traced_accept fn none u w p hu (Or.inl rfl)]
  rfl

/-- Witness of `makeAuthedAction_no_roles`: an identity with a role outside the
enumeration is accepted. -/
theorem makeAuthedAction_no_roles_witness :
    makeAuthedAction (sampleAction 1 (some [7], none)) none
        (sampleSession (Value.userPtr (sampleUser 3 "guest"))) params.nil
      = sampleAction 1 (some [7], none)
          ((sampleSession (Value.userPtr (sampleUser 3 "guest"))).contextSet userkey
            (Value.userPtr (sampleUser 3 "guest"))) params.nil ∧
    (makeAuthedAction (traced 0 (sampleAction 1 (some [7], none))) none
        (sampleSession (Value.userPtr (sampleUser 3 "guest"))).fresh params.nil).2.log.length
      = 1 :=
  makeAuthedAction_no_roles (sampleAction 1 (some [7], none)) (sampleUser 3 "guest")
    (sampleSession (Value.userPtr (sampleUser 3 "guest"))) params.nil rfl

/-- C9 (as stated) fails for an allow-list that is empty but not nil (the call
`makeAuthedAction(fn, []string{}...)`): the admin identity held in the session
is rejected with `ErrUnauthorized` and the wrapped action is not invoked. -/
theorem makeAuthedAction_empty_roles_counterexample :
    len (some [] : Slice String) = 0 ∧
    (sampleSession (Value.userPtr (sampleUser 1 admin))).session "user"
      = some (Value.userPtr (sampleUser 1 admin)) ∧
    (makeAuthedAction (sampleAction 1 (some [7], none)) (some [])
        (sampleSession (Value.userPtr (sampleUser 1 admin))) params.nil).1
      = (none, some GoError.ErrUnauthorized) ∧
    (makeAuthedAction (traced 0 (sampleAction 1 (some [7], none))) (some [])
        (sampleSession (Value.userPtr (sampleUser 1 admin))).fresh params.nil).2.log = [] := by
  refine ⟨rfl, rfl, ?_, ?_⟩
  · rw [makeAuthedAction_reject_role _ [] (sampleUser 1 admin) _ _ rfl rfl]
  · rw [makeAuthedAction_reject_role _ [] (sampleUser 1 admin) _ _ rfl rfl]
    rfl

/-- C10: when `makeAuthedAction` accepts the request (an identity `u` in the
session, and no allow-list or the role of `u` in it), the result is exactly what
the wrapped action returns when run, with the same params, on the world whose
context holds `u` under the login-user key and is otherwise as before; the
wrapped action is invoked exactly once, and at its entry the context already
holds `u` under the login-user key. -/
theorem makeAuthedAction_publishes_then_calls {σ : Type} (fn : actionFunc σ)
    (roles : Slice String) (u : User) (w : World σ) (p : params)
    (hu : w.session "user" = some (Value.userPtr u))
    (hr : roles = none ∨ inArray roles u.Role = true) :
    makeAuthedAction fn roles w p = fn (w.contextSet userkey (Value.userPtr u)) p ∧
    (w.contextSet userkey (Value.userPtr u)).context userkey = some (Value.userPtr u) ∧
    (∀ k : CtxKey, k ≠ userkey →
      (w.contextSet userkey (Value.userPtr u)).context k = w.context k) ∧
    (w.contextSet userkey (Value.userPtr u)).session = w.session ∧
    (w.contextSet userkey (Value.userPtr u)).ext = w.ext ∧
    (makeAuthedAction (traced 0 fn) roles w.fresh p).2.log
      = [{ idx := 0, p := p, loginUser := some (Value.userPtr u),
           ret := (fn (w.contextSet userkey (Value.userPtr u)) p).1 }] ∧
    (makeAuthedAction (traced 0 fn) roles w.fresh p).1
      = (fn (w.contextSet userkey (Value.userPtr u)) p).1 := by
  refine ⟨makeAuthedAction_accept fn roles u w p hu hr, contextSet_userkey w _, ?_, rfl, rfl,
    ?_, ?_⟩
  · intro k hk
    simp [World.contextSet, hk]
  · rw [makeAuthedAction_traced_accept fn roles u w p hu hr]
    rfl
  · rw [makeAuthedAction_traced_accept fn roles u w p hu hr]

/-- Witness of `makeAuthedAction_publishes_then_calls`: an admin identity
passing the allow-list `{admin}`. -/
theorem makeAuthedAction_publishes_then_calls_witness :
    (makeAuthedAction (sampleAction 1 (some [7], none)) (some [admin])
        (sampleSession (Value.userPtr (sampleUser 1 admin))) params.nil).1
      = (some [7], none) ∧
    (makeAuthedAction (traced 0 (sampleAction 1 (some [7], none))) (some [admin])
        (sampleSession (Value.userPtr (sampleUser 1 admin))).fresh params.nil).2.log
      = [{ idx := 0, p := params.nil,
           loginUser := some (Value.userPtr (sampleUser 1 admin)),
           ret := (some [7], none) }] :=
  ⟨congrArg Prod.fst (makeAuthedAction_publishes_then_calls (sampleAction 1 (some [7], none))
      (some [admin]) (sampleUser 1 admin)
      (sampleSession (Value.userPtr (sampleUser 1 admin))) params.nil rfl
      (Or.inr (by decide))).1,
   (makeAuthedAction_publishes_then_calls (sampleAction 1 (some [7], none))
      (some [admin]) (sampleUser 1 admin)
      (sampleSession (Value.userPtr (sampleUser 1 admin))) params.nil rfl
      (Or.inr (by decide))).2.2.2.2.2.1⟩

/-! ## Properties of the handler built by makeCtxHandler -/

theorem WriteHeader_status_of_fresh (w : ResponseWriter) (code : Nat) (h : w.status = none) :
    (w.WriteHeader code).status = some code := by
  simp [ResponseWriter.WriteHeader, h]

theorem WriteHeader_body (w : ResponseWriter) (code : Nat) :
    (w.WriteHeader code).body = w.body := by
  unfold ResponseWriter.WriteHeader
  split <;> rfl

theorem Write_status_of_written (w : ResponseWriter) (b : Bytes) (code : Nat)
    (h : w.status = some code) : (w.Write b).status = some code := by
  simp [ResponseWriter.Write, ResponseWriter.WriteHeader, h]

theorem Write_status_of_fresh (w : ResponseWriter) (b : Bytes) (h : w.status = none) :
    (w.Write b).status = some 200 := by
  simp [ResponseWriter.Write, ResponseWriter.WriteHeader, h]

theorem Write_body (w : ResponseWriter) (b : Bytes) :
    (w.Write b).body = w.body ++ b.getD [] := by
  simp [ResponseWriter.Write, WriteHeader_body]

theorem WriteHeader_Write_status (w : ResponseWriter) (code : Nat) (b : Bytes)
    (h : w.status = none) : ((w.WriteHeader code).Write b).status = some code :=
  Write_status_of_written _ _ _ (WriteHeader_status_of_fresh w code h)

theorem WriteHeader_Write_body (w : ResponseWriter) (code : Nat) (b : Bytes) :
    ((w.WriteHeader code).Write b).body = w.body ++ b.getD [] := by
  rw [Write_body, WriteHeader_body]

theorem WriteHeader_Fprintln_status (w : ResponseWriter) (code : Nat) (s : String)
    (h : w.status = none) : ((w.WriteHeader code).Fprintln s).status = some code :=
  WriteHeader_Write_status w code _ h

theorem WriteHeader_Fprintln_body (w : ResponseWriter) (code : Nat) (s : String) :
    ((w.WriteHeader code).Fprintln s).body = w.body ++ utf8 (s ++ "\n") := by
  unfold ResponseWriter.Fprintln
  rw [WriteHeader_Write_body]
  rfl

theorem writeOutcome_notFound (ret : Bytes) (err : Error) (w : ResponseWriter)
    (h : err = some GoError.ErrNotFound ∨ err = some GoError.sqlErrNoRows) :
    writeOutcome ret err w = (w.WriteHeader StatusNotFound).Fprintln err404Tmpl := by
  unfold writeOutcome
  rw [if_pos h]

theorem writeOutcome_unauthorized (ret : Bytes) (w : ResponseWriter) :
    writeOutcome ret (some GoError.ErrUnauthorized) w
      = (w.WriteHeader StatusUnauthorized).Fprintln
          (Sprintf errJsTmpl GoError.ErrUnauthorized.Error) := by
  simp [writeOutcome]

theorem writeOutcome_badRequest (ret : Bytes) (w : ResponseWriter) :
    writeOutcome ret (some GoError.ErrBadRequest) w
      = (w.WriteHeader StatusBadRequest).Fprintln
          (Sprintf errJsTmpl GoError.ErrBadRequest.Error) := by
  simp [writeOutcome]

theorem writeOutcome_validation (ret : Bytes) (w : ResponseWriter) :
    writeOutcome ret (some GoError.ErrValidation) w
      = (w.WriteHeader StatusBadRequest).Write ret := by
  simp [writeOutcome]

theorem writeOutcome_other (ret : Bytes) (text : String) (w : ResponseWriter) :
    writeOutcome ret (some (GoError.other text)) w
      = (w.WriteHeader StatusInternalServerError).Fprintln (Sprintf errJsTmpl text) := by
  simp [writeOutcome, GoError.Error]

theorem writeOutcome_nil (ret : Bytes) (w : ResponseWriter) :
    writeOutcome ret none w = w.Write ret := by
  simp [writeOutcome]

/-- The handler when the route declares no params shape, or when the body was
decoded into `p1`: the action runs on the bound context and its outcome is
written. -/
theorem makeCtxHandler_run {σ : Type} (g : Globals)
    (decode : List Byte → params → Except String params) (fn : actionFunc (Env σ))
    (p p1 : params) (r0 : World (Env σ))
    (hp : (p = params.nil ∧ p1 = p) ∨
      (p ≠ params.nil ∧ decode r0.ext.body p = Except.ok p1)) :
    makeCtxHandler g decode fn p r0 =
      (fn (bindContext g r0) p1).2.onWriter
        (writeOutcome (fn (bindContext g r0) p1).1.1 (fn (bindContext g r0) p1).1.2) := by
  unfold makeCtxHandler
  rcases hp with ⟨h1, h2⟩ | ⟨h1, h2⟩
  · subst h2
    simp [h1]
  · have hb : (bindContext g r0).ext.body = r0.ext.body := rfl
    simp only [h1, hb, h2, ne_eq, not_false_eq_true, if_true]

/-- The handler when decoding the body fails. -/
theorem makeCtxHandler_decode_error {σ : Type} (g : Globals)
    (decode : List Byte → params → Except String params) (fn : actionFunc (Env σ))
    (p : params) (r0 : World (Env σ)) (e : String)
    (hp : p ≠ params.nil) (hd : decode r0.ext.body p = Except.error e) :
    makeCtxHandler g decode fn p r0 = (bindContext g r0).onWriter (writeDecodeError e) := by
  unfold makeCtxHandler
  have hb : (bindContext g r0).ext.body = r0.ext.body := rfl
  simp only [hp, hb, hd, ne_eq, not_false_eq_true, if_true]

theorem onWriter_w {σ : Type} (r : World (Env σ)) (f : ResponseWriter → ResponseWriter) :
    (r.onWriter f).ext.w = f r.ext.w := rfl

/-- C11: when the composed action has not written the response header itself,
the status the handler leaves is fixed by the identity of the returned error:
404 for `ErrNotFound` and for `sql.ErrNoRows`, 401 for `ErrUnauthorized`, 400
for `ErrBadRequest` and for `ErrValidation`, 500 for every other non-nil error
whatever its text, and 200 for the nil error, the bytes of the action then
being appended as they are; the status is always one of 200, 400, 401, 404,
500. -/
theorem makeCtxHandler_status {σ : Type} (g : Globals)
    (decode : List Byte → params → Except String params) (fn : actionFunc (Env σ))
    (p p1 : params) (r0 : World (Env σ)) (out : Result × World (Env σ))
    (hp : (p = params.nil ∧ p1 = p) ∨
      (p ≠ params.nil ∧ decode r0.ext.body p = Except.ok p1))
    (hout : fn (bindContext g r0) p1 = out)
    (hfresh : out.2.ext.w.status = none) :
    (out.1.2 = some GoError.ErrNotFound ∨ out.1.2 = some GoError.sqlErrNoRows →
      (makeCtxHandler g decode fn p r0).ext.w.status = some 404) ∧
    (out.1.2 = some GoError.ErrUnauthorized →
      (makeCtxHandler g decode fn p r0).ext.w.status = some 401) ∧
    (out.1.2 = some GoError.ErrBadRequest →
      (makeCtxHandler g decode fn p r0).ext.w.status = some 400) ∧
    (out.1.2 = some GoError.ErrValidation →
      (makeCtxHandler g decode fn p r0).ext.w.status = some 400) ∧
    (∀ text : String, out.1.2 = some (GoError.other text) →
      (makeCtxHandler g decode fn p r0).ext.w.status = some 500) ∧
    (out.1.2 = none →
      (makeCtxHandler g decode fn p r0).ext.w.status = some 200 ∧
      (makeCtxHandler g decode fn p r0).ext.w.body = out.2.ext.w.body ++ out.1.1.getD []) ∧
    ((makeCtxHandler g decode fn p r0).ext.w.status = some 200 ∨
     (makeCtxHandler g decode fn p r0).ext.w.status = some 400 ∨
     (makeCtxHandler g decode fn p r0).ext.w.status = some 401 ∨
     (makeCtxHandler g decode fn p r0).ext.w.status = some 404 ∨
     (makeCtxHandler g decode fn p r0).ext.w.status = some 500) := by
  rw [makeCtxHandler_run g decode fn p p1 r0 hp, hout, onWriter_w]
  have h404 : out.1.2 = some GoError.ErrNotFound ∨ out.1.2 = some GoError.sqlErrNoRows →
      (writeOutcome out.1.1 out.1.2 out.2.ext.w).status = some 404 := by
    intro h
    rw [writeOutcome_notFound _ _ _ h]
    exact WriteHeader_Fprintln_status _ _ _ hfresh
  have h401 : out.1.2 = some GoError.ErrUnauthorized →
      (writeOutcome out.1.1 out.1.2 out.2.ext.w).status = some 401 := by
    intro h
    rw [h, writeOutcome_unauthorized]
    exact WriteHeader_Fprintln_status _ _ _ hfresh
  have h400 : out.1.2 = some GoError.ErrBadRequest →
      (writeOutcome out.1.1 out.1.2 out.2.ext.w).status = some 400 := by
    intro h
    rw [h, writeOutcome_badRequest]
    exact WriteHeader_Fprintln_status _ _ _ hfresh
  have h400v : out.1.2 = some GoError.ErrValidation →
      (writeOutcome out.1.1 out.1.2 out.2.ext.w).status = some 400 := by
    intro h
    rw [h, writeOutcome_validation]
    exact WriteHeader_Write_status _ _ _ hfresh
  have h500 : ∀ text : String, out.1.2 = some (GoError.other text) →
      (writeOutcome out.1.1 out.1.2 out.2.ext.w).status = some 500 := by
    intro text h
    rw [h, writeOutcome_other]
    exact WriteHeader_Fprintln_status _ _ _ hfresh
  have h200 : out.1.2 = none →
      (writeOutcome out.1.1 out.1.2 out.2.ext.w).status = some 200 ∧
      (writeOutcome out.1.1 out.1.2 out.2.ext.w).body
        = out.2.ext.w.body ++ out.1.1.getD [] := by
    intro h
    rw [h, writeOutcome_nil]
    exact ⟨Write_status_of_fresh _ _ hfresh, Write_body _ _⟩
  refine ⟨h404, h401, h400, h400v, h500, h200, ?_⟩
  have hcases : out.1.2 = none ∨ out.1.2 = some GoError.ErrNotFound ∨
      out.1.2 = some GoError.ErrUnauthorized ∨ out.1.2 = some GoError.ErrBadRequest ∨
      out.1.2 = some GoError.ErrValidation ∨ out.1.2 = some GoError.sqlErrNoRows ∨
      ∃ text : String, out.1.2 = some (GoError.other text) := by
    cases out.1.2 with
    | none => exact Or.inl rfl
    | some e => cases e <;> simp
  rcases hcases with h | h | h | h | h | h | ⟨text, h⟩
  · exact Or.inl (h200 h).1
  · exact Or.inr (Or.inr (Or.inr (Or.inl (h404 (Or.inl h)))))
  · exact Or.inr (Or.inr (Or.inl (h401 h)))
  · exact Or.inr (Or.inl (h400 h))
  · exact Or.inr (Or.inl (h400v h))
  · exact Or.inr (Or.inr (Or.inr (Or.inl (h404 (Or.inr h)))))
  · exact Or.inr (Or.inr (Or.inr (Or.inr (h500 text h))))

/-- Witness of `makeCtxHandler_status`: the no-rows error of the database gives
404, an error that only has the text of `ErrUnauthorized` gives 500, and a nil
error gives 200 with the bytes of the action as the body. -/
theorem makeCtxHandler_status_witness :
    (makeCtxHandler sampleGlobals (failingDecode "x")
      (sampleEnvAction 1 (some [7], some GoError.sqlErrNoRows)) params.nil
      (sampleRequest "1")).ext.w.status = some 404 ∧
    (makeCtxHandler sampleGlobals (failingDecode "x")
      (sampleEnvAction 1 (none, some (GoError.other "Unauthorized"))) params.nil
      (sampleRequest "1")).ext.w.status = some 500 ∧
    (makeCtxHandler sampleGlobals (failingDecode "x")
      (sampleEnvAction 1 (some [7], none)) params.nil
      (sampleRequest "1")).ext.w.status = some 200 ∧
    (makeCtxHandler sampleGlobals (failingDecode "x")
      (sampleEnvAction 1 (some [7], none)) params.nil
      (sampleRequest "1")).ext.w.body = [7] :=
  ⟨(makeCtxHandler_status sampleGlobals (failingDecode "x")
      (sampleEnvAction 1 (some [7], some GoError.sqlErrNoRows)) params.nil params.nil
      (sampleRequest "1") _ (Or.inl ⟨rfl, rfl⟩) rfl rfl).1 (Or.inr rfl),
   (makeCtxHandler_status sampleGlobals (failingDecode "x")
      (sampleEnvAction 1 (none, some (GoError.other "Unauthorized"))) params.nil params.nil
      (sampleRequest "1") _ (Or.inl ⟨rfl, rfl⟩) rfl rfl).2.2.2.2.1 "Unauthorized" rfl,
   ((makeCtxHandler_status sampleGlobals (failingDecode "x")
      (sampleEnvAction 1 (some [7], none)) params.nil params.nil
      (sampleRequest "1") _ (Or.inl ⟨rfl, rfl⟩) rfl rfl).2.2.2.2.2.1 rfl).1,
   ((makeCtxHandler_status sampleGlobals (failingDecode "x")
      (sampleEnvAction 1 (some [7], none)) params.nil params.nil
      (sampleRequest "1") _ (Or.inl ⟨rfl, rfl⟩) rfl rfl).2.2.2.2.2.1 rfl).2⟩

/-- C12: when the action returns `ErrValidation` together with the bytes `b`
and has not written the response header itself, the handler answers with
status 400 and appends exactly `b` to the body; on a body empty so far the
response body is `b`, byte for byte. -/
theorem makeCtxHandler_validation_body {σ : Type} (g : Globals)
    (decode : List Byte → params → Except String params) (fn : actionFunc (Env σ))
    (p p1 : params) (r0 : World (Env σ)) (out : Result × World (Env σ)) (b : Bytes)
    (hp : (p = params.nil ∧ p1 = p) ∨
      (p ≠ params.nil ∧ decode r0.ext.body p = Except.ok p1))
    (hout : fn (bindContext g r0) p1 = out)
    (hfresh : out.2.ext.w.status = none)
    (hret : out.1 = (b, some GoError.ErrValidation)) :
    (makeCtxHandler g decode fn p r0).ext.w.status = some 400 ∧
    (makeCtxHandler g decode fn p r0).ext.w.body = out.2.ext.w.body ++ b.getD [] ∧
    (out.2.ext.w.body = [] → (makeCtxHandler g decode fn p r0).ext.w.body = b.getD []) := by
  rw [makeCtxHandler_run g decode fn p p1 r0 hp, hout, onWriter_w, hret]
  simp only [writeOutcome_validation]
  refine ⟨WriteHeader_Write_status _ _ _ hfresh, WriteHeader_Write_body _ _ _, ?_⟩
  intro hb
  rw [WriteHeader_Write_body, hb, List.nil_append]

/-- Witness of `makeCtxHandler_validation_body`: the login route, with a body
decoded into an empty user name and a password; the response is the body built
by `validateLogin`. -/
theorem makeCtxHandler_validation_body_witness :
    (makeCtxHandler sampleGlobals (constDecode (params.loginParams "" "secret"))
      validateLogin (params.loginParams "" "") (sampleRequest "")).ext.w.status = some 400 ∧
    (makeCtxHandler sampleGlobals (constDecode (params.loginParams "" "secret"))
      validateLogin (params.loginParams "" "") (sampleRequest "")).ext.w.body
      = utf8 "\x7b\"msgs\":\x7b\"username\":[\"Username is required.\"]\x7d,\"data\":null\x7d" :=
  ⟨(makeCtxHandler_validation_body sampleGlobals (constDecode (params.loginParams "" "secret"))
      validateLogin (params.loginParams "" "") (params.loginParams "" "secret")
      (sampleRequest "") _
      (some (utf8
        "\x7b\"msgs\":\x7b\"username\":[\"Username is required.\"]\x7d,\"data\":null\x7d"))
      (Or.inr ⟨by decide, rfl⟩) rfl rfl (by decide)).1,
   (makeCtxHandler_validation_body sampleGlobals (constDecode (params.loginParams "" "secret"))
      validateLogin (params.loginParams "" "") (params.loginParams "" "secret")
      (sampleRequest "") _
      (some (utf8
        "\x7b\"msgs\":\x7b\"username\":[\"Username is required.\"]\x7d,\"data\":null\x7d"))
      (Or.inr ⟨by decide, rfl⟩) rfl rfl (by decide)).2.2 rfl⟩

/-- C13 (as amended): when the action returns `ErrNotFound` or the no-rows
error of the database and has not written the response header itself, the
handler answers with status 404 and appends the fixed text `err404Tmpl` followed
by a newline, whatever bytes the action returned alongside the error. -/
theorem makeCtxHandler_notFound_body {σ : Type} (g : Globals)
    (decode : List Byte → params → Except String params) (fn : actionFunc (Env σ))
    (p p1 : params) (r0 : World (Env σ)) (out : Result × World (Env σ))
    (hp : (p = params.nil ∧ p1 = p) ∨
      (p ≠ params.nil ∧ decode r0.ext.body p = Except.ok p1))
    (hout : fn (bindContext g r0) p1 = out)
    (hfresh : out.2.ext.w.status = none)
    (herr : out.1.2 = some GoError.ErrNotFound ∨ out.1.2 = some GoError.sqlErrNoRows) :
    (makeCtxHandler g decode fn p r0).ext.w.status = some 404 ∧
    (makeCtxHandler g decode fn p r0).ext.w.body
      = out.2.ext.w.body ++ (utf8 err404Tmpl ++ [10]) ∧
    err404Tmpl
      = "\x7b\"msgs\":\x7b\"global\":[\"404 page not found\"]\x7d,\"data\":null\x7d" := by
  rw [makeCtxHandler_run g decode fn p p1 r0 hp, hout, onWriter_w,
    writeOutcome_notFound _ _ _ herr]
  refine ⟨WriteHeader_Fprintln_status _ _ _ hfresh, ?_, rfl⟩
  rw [WriteHeader_Fprintln_body]
  have h : utf8 (err404Tmpl ++ "\n") = utf8 err404Tmpl ++ [10] := by decide
  rw [h]

/-- Witness of `makeCtxHandler_notFound_body`: an action returning bytes next to
`ErrNotFound`. -/
theorem makeCtxHandler_notFound_body_witness :
    (makeCtxHandler sampleGlobals (failingDecode "x")
      (sampleEnvAction 1 (some [7], some GoError.ErrNotFound)) params.nil
      (sampleRequest "1")).ext.w.status = some 404 ∧
    (makeCtxHandler sampleGlobals (failingDecode "x")
      (sampleEnvAction 1 (some [7], some GoError.ErrNotFound)) params.nil
      (sampleRequest "1")).ext.w.body = utf8 err404Tmpl ++ [10] :=
  ⟨(makeCtxHandler_notFound_body sampleGlobals (failingDecode "x")
      (sampleEnvAction 1 (some [7], some GoError.ErrNotFound)) params.nil params.nil
      (sampleRequest "1") _ (Or.inl ⟨rfl, rfl⟩) rfl rfl (Or.inl rfl)).1,
   (makeCtxHandler_notFound_body sampleGlobals (failingDecode "x")
      (sampleEnvAction 1 (some [7], some GoError.ErrNotFound)) params.nil params.nil
      (sampleRequest "1") _ (Or.inl ⟨rfl, rfl⟩) rfl rfl (Or.inl rfl)).2.1⟩

/-- C13 (as stated) fails on the last byte: for an action returning
`ErrNotFound` the status is 404, but the response body is not the text
`err404Tmpl`; it is that text followed by the newline `fmt.Fprintln` adds. -/
theorem makeCtxHandler_notFound_newline_counterexample :
    (sampleEnvAction 1 (some [7], some GoError.ErrNotFound)
      (bindContext sampleGlobals (sampleRequest "1")) params.nil).1.2
      = some GoError.ErrNotFound ∧
    (makeCtxHandler sampleGlobals (failingDecode "x")
      (sampleEnvAction 1 (some [7], some GoError.ErrNotFound)) params.nil
      (sampleRequest "1")).ext.w.status = some 404 ∧
    (makeCtxHandler sampleGlobals (failingDecode "x")
      (sampleEnvAction 1 (some [7], some GoError.ErrNotFound)) params.nil
      (sampleRequest "1")).ext.w.body
      ≠ utf8 "\x7b\"msgs\":\x7b\"global\":[\"404 page not found\"]\x7d,\"data\":null\x7d" ∧
    (makeCtxHandler sampleGlobals (failingDecode "x")
      (sampleEnvAction 1 (some [7], some GoError.ErrNotFound)) params.nil
      (sampleRequest "1")).ext.w.body
      = utf8 "\x7b\"msgs\":\x7b\"global\":[\"404 page not found\"]\x7d,\"data\":null\x7d\n" := by
  decide

/-- C14, evaluated: the error text is put between the quotes of `errJsTmpl` as
it is, without JSON escaping. For an action returning an error with the text
`a"b` the handler answers 500 with a body whose text does not read as an
envelope with one global message (the quote of the text closes the JSON string
early), whereas the body written for `ErrUnauthorized` reads back as that
error text. -/
theorem makeCtxHandler_error_text_unescaped :
    (∀ text : String, Sprintf errJsTmpl text
      = "\x7b\"msgs\":\x7b\"global\":[\"" ++ text ++ "\"]\x7d,\"data\":null\x7d") ∧
    (makeCtxHandler sampleGlobals (failingDecode "x")
      (sampleEnvAction 1 (none, some (GoError.other "a\"b"))) params.nil
      (sampleRequest "1")).ext.w.status = some 500 ∧
    (makeCtxHandler sampleGlobals (failingDecode "x")
      (sampleEnvAction 1 (none, some (GoError.other "a\"b"))) params.nil
      (sampleRequest "1")).ext.w.body
      = utf8 "\x7b\"msgs\":\x7b\"global\":[\"a\"b\"]\x7d,\"data\":null\x7d\n" ∧
    decodeGlobalMsg "\x7b\"msgs\":\x7b\"global\":[\"a\"b\"]\x7d,\"data\":null\x7d\n" = none ∧
    (makeCtxHandler sampleGlobals (failingDecode "x")
      (sampleEnvAction 1 (none, some GoError.ErrUnauthorized)) params.nil
      (sampleRequest "1")).ext.w.body
      = utf8 "\x7b\"msgs\":\x7b\"global\":[\"Unauthorized\"]\x7d,\"data\":null\x7d\n" ∧
    decodeGlobalMsg "\x7b\"msgs\":\x7b\"global\":[\"Unauthorized\"]\x7d,\"data\":null\x7d\n"
      = some "Unauthorized" := by
  refine ⟨fun _ => rfl, ?_, ?_, ?_, ?_, ?_⟩ <;> decide

theorem bindContext_userkey {σ : Type} (g : Globals) (r : World (Env σ)) :
    (bindContext g r).context userkey = r.context userkey := by
  simp [bindContext, SetSystemConf, SetSmtpConf, SetMailTmpl, SetDB, World.contextSet,
    World.onWriter, userkey, systemkey, smtpkey, tmplkey, dbkey]

theorem bindContext_session {σ : Type} (g : Globals) (r : World (Env σ)) :
    (bindContext g r).session = r.session := rfl

theorem bindContext_vars {σ : Type} (g : Globals) (r : World (Env σ)) :
    (bindContext g r).ext.vars = r.ext.vars := rfl

theorem bindContext_rest {σ : Type} (g : Globals) (r : World (Env σ)) :
    (bindContext g r).ext.rest = r.ext.rest := rfl

theorem bindContext_status {σ : Type} (g : Globals) (r : World (Env σ)) :
    (bindContext g r).ext.w.status = r.ext.w.status := rfl

theorem bindContext_body {σ : Type} (g : Globals) (r : World (Env σ)) :
    (bindContext g r).ext.w.body = r.ext.w.body := rfl

theorem bindContext_withRest {σ τ : Type} (g : Globals) (r : World (Env σ)) (x : τ) :
    bindContext g (r.withRest x) = (bindContext g r).withRest x := rfl

theorem tracedEnv_withRest {σ : Type} (i : Nat) (fn : actionFunc (Env σ)) (r : World (Env σ))
    (l : List Invocation) (p : params) :
    tracedEnv i fn (r.withRest (r.ext.rest, l)) p =
      ((fn r p).1, (fn r p).2.withRest ((fn r p).2.ext.rest,
        l ++ [{ idx := i, p := p, loginUser := r.context userkey, ret := (fn r p).1 }])) := rfl

/-- The decode stage of the handler: when the route declares a params shape and
decoding the request body fails with the error text `e`, the handler writes the
decode error and nothing
else: the status is 500 (on a response not yet started), the body gains the text
of `errJsTmpl` filled with `e` and a newline, and the action is not invoked.
When the route declares no shape (`p` is nil) the decoder is not consulted: the
action is invoked, once, with the nil params, and its outcome is written. -/
theorem makeCtxHandler_decode_failure {σ : Type} (g : Globals)
    (decode : List Byte → params → Except String params) (fn : actionFunc (Env σ))
    (p : params) (r0 : World (Env σ)) :
    (∀ e : String, p ≠ params.nil → decode r0.ext.body p = Except.error e →
      makeCtxHandler g decode fn p r0 = (bindContext g r0).onWriter (writeDecodeError e) ∧
      (r0.ext.w.status = none → (makeCtxHandler g decode fn p r0).ext.w.status = some 500) ∧
      (makeCtxHandler g decode fn p r0).ext.w.body
        = r0.ext.w.body ++ utf8 (Sprintf errJsTmpl e ++ "\n") ∧
      (makeCtxHandler g decode fn p r0).ext.rest = r0.ext.rest ∧
      (makeCtxHandler g decode (tracedEnv 0 fn) p
        (r0.withRest (r0.ext.rest, []))).ext.rest.2 = []) ∧
    (p = params.nil →
      makeCtxHandler g decode fn p r0 =
        (fn (bindContext g r0) params.nil).2.onWriter
          (writeOutcome (fn (bindContext g r0) params.nil).1.1
            (fn (bindContext g r0) params.nil).1.2) ∧
      (makeCtxHandler g decode (tracedEnv 0 fn) p
        (r0.withRest (r0.ext.rest, []))).ext.rest.2
        = [{ idx := 0, p := params.nil, loginUser := r0.context userkey,
             ret := (fn (bindContext g r0) params.nil).1 }]) := by
  constructor
  · intro e hp hd
    have hrun := makeCtxHandler_decode_error g decode fn p r0 e hp hd
    have hrunT := makeCtxHandler_decode_error g decode (tracedEnv 0 fn) p
      (r0.withRest (r0.ext.rest, [])) e hp hd
    refine ⟨hrun, ?_, ?_, ?_, ?_⟩
    · intro hfresh
      rw [hrun, onWriter_w]
      exact WriteHeader_Fprintln_status _ _ _ hfresh
    · rw [hrun, onWriter_w]
      exact WriteHeader_Fprintln_body _ _ _
    · rw [hrun]
      rfl
    · rw [hrunT]
      rfl
  · intro hp
    subst hp
    refine ⟨makeCtxHandler_run g decode fn params.nil params.nil r0 (Or.inl ⟨rfl, rfl⟩), ?_⟩
    rw [makeCtxHandler_run g decode (tracedEnv 0 fn) params.nil params.nil
      (r0.withRest (r0.ext.rest, [])) (Or.inl ⟨rfl, rfl⟩), bindContext_withRest,
      ← bindContext_rest g r0, tracedEnv_withRest, bindContext_userkey]
    simp [World.onWriter, World.withRest]

/-- An instance of `makeCtxHandler_decode_failure`: on the login route a body that
does not decode gives 500 and leaves the counter of the action at 0; on a route
without params shape a decoder that would fail is never consulted and the
action runs. -/
theorem makeCtxHandler_decode_failure_witness :
    ((makeCtxHandler sampleGlobals (failingDecode "unexpected EOF")
        (sampleEnvAction 1 (some [7], none)) (params.loginParams "" "")
        (sampleRequest "")).ext.w.status = some 500 ∧
     (makeCtxHandler sampleGlobals (failingDecode "unexpected EOF")
        (sampleEnvAction 1 (some [7], none)) (params.loginParams "" "")
        (sampleRequest "")).ext.rest = (0, []) ∧
     (makeCtxHandler sampleGlobals (failingDecode "unexpected EOF")
        (tracedEnv 0 (sampleEnvAction 1 (some [7], none))) (params.loginParams "" "")
        ((sampleRequest "").withRest ((sampleRequest "").ext.rest, []))).ext.rest.2 = []) ∧
    (makeCtxHandler sampleGlobals (failingDecode "unexpected EOF")
        (tracedEnv 0 (sampleEnvAction 1 (some [7], none))) params.nil
        ((sampleRequest "").withRest ((sampleRequest "").ext.rest, []))).ext.rest.2
      = [{ idx := 0, p := params.nil, loginUser := none, ret := (some [7], none) }] :=
  ⟨⟨((makeCtxHandler_decode_failure sampleGlobals (failingDecode "unexpected EOF")
        (sampleEnvAction 1 (some [7], none)) (params.loginParams "" "")
        (sampleRequest "")).1 "unexpected EOF" (by decide) rfl).2.1 rfl,
    ((makeCtxHandler_decode_failure sampleGlobals (failingDecode "unexpected EOF")
        (sampleEnvAction 1 (some [7], none)) (params.loginParams "" "")
        (sampleRequest "")).1 "unexpected EOF" (by decide) rfl).2.2.2.1,
    ((makeCtxHandler_decode_failure sampleGlobals (failingDecode "unexpected EOF")
        (sampleEnvAction 1 (some [7], none)) (params.loginParams "" "")
        (sampleRequest "")).1 "unexpected EOF" (by decide) rfl).2.2.2.2⟩,
   ((makeCtxHandler_decode_failure sampleGlobals (failingDecode "unexpected EOF")
        (sampleEnvAction 1 (some [7], none)) params.nil
        (sampleRequest "")).2 rfl).2⟩

/-! ## Properties of validateLogin -/

theorem validateLogin_both_given {σ : Type} (w : World σ) (Username Password : String)
    (hU : Username ≠ "") (hP : Password ≠ "") :
    validateLogin w (params.loginParams Username Password) = ((none, none), w) := by
  simp [validateLogin, hU, hP]

theorem validateLogin_no_username {σ : Type} (w : World σ) (Password : String)
    (hP : Password ≠ "") :
    validateLogin w (params.loginParams "" Password) =
      ((some (utf8
          "\x7b\"msgs\":\x7b\"username\":[\"Username is required.\"]\x7d,\"data\":null\x7d"),
        some GoError.ErrValidation), w) := by
  have h : jsonMarshalResponse (NewResponse (MsgsArg.map
      (some (mapSet [] "username" (some ["Username is required."])))) none)
      = "\x7b\"msgs\":\x7b\"username\":[\"Username is required.\"]\x7d,\"data\":null\x7d" := by
    decide
  have hm : (mapSet [] "username" (some ["Username is required."])).length > 0 := by decide
  simp only [validateLogin, if_true, if_false, hP, hm, h]

theorem validateLogin_no_password {σ : Type} (w : World σ) (Username : String)
    (hU : Username ≠ "") :
    validateLogin w (params.loginParams Username "") =
      ((some (utf8
          "\x7b\"msgs\":\x7b\"password\":[\"Password is required.\"]\x7d,\"data\":null\x7d"),
        some GoError.ErrValidation), w) := by
  have h : jsonMarshalResponse (NewResponse (MsgsArg.map
      (some (mapSet [] "password" (some ["Password is required."])))) none)
      = "\x7b\"msgs\":\x7b\"password\":[\"Password is required.\"]\x7d,\"data\":null\x7d" := by
    decide
  have hm : (mapSet [] "password" (some ["Password is required."])).length > 0 := by decide
  simp only [validateLogin, if_true, if_false, hU, hm, h]

theorem validateLogin_nothing_given {σ : Type} (w : World σ) :
    validateLogin w (params.loginParams "" "") =
      ((some (utf8 ("\x7b\"msgs\":\x7b\"password\":[\"Password is required.\"]," ++
          "\"username\":[\"Username is required.\"]\x7d,\"data\":null\x7d")),
        some GoError.ErrValidation), w) := by
  have h : jsonMarshalResponse (NewResponse (MsgsArg.map
      (some (mapSet (mapSet [] "username" (some ["Username is required."])) "password"
        (some ["Password is required."])))) none)
      = "\x7b\"msgs\":\x7b\"password\":[\"Password is required.\"]," ++
          "\"username\":[\"Username is required.\"]\x7d,\"data\":null\x7d" := by
    decide
  have hm : (mapSet (mapSet [] "username" (some ["Username is required."])) "password"
        (some ["Password is required."])).length > 0 := by decide
  simp only [validateLogin, if_true, hm, h]

/-- C16: for every `loginParams` value, `validateLogin` returns `(nil, nil)` if
and only if both `Username` and `Password` are non-empty; otherwise it returns
`ErrValidation` with the JSON envelope whose `msgs` holds the key `username`
exactly when `Username` is empty and the key `password` exactly when `Password`
is empty, each with its one message, and whose `data` is null. The world is
left as it was. -/
theorem validateLogin_spec {σ : Type} (w : World σ) (Username Password : String) :
    ((validateLogin w (params.loginParams Username Password)).1 = (none, none)
      ↔ Username ≠ "" ∧ Password ≠ "") ∧
    (Username = "" → Password ≠ "" →
      (validateLogin w (params.loginParams Username Password)).1 =
        (some (utf8
          "\x7b\"msgs\":\x7b\"username\":[\"Username is required.\"]\x7d,\"data\":null\x7d"),
         some GoError.ErrValidation)) ∧
    (Username ≠ "" → Password = "" →
      (validateLogin w (params.loginParams Username Password)).1 =
        (some (utf8
          "\x7b\"msgs\":\x7b\"password\":[\"Password is required.\"]\x7d,\"data\":null\x7d"),
         some GoError.ErrValidation)) ∧
    (Username = "" → Password = "" →
      (validateLogin w (params.loginParams Username Password)).1 =
        (some (utf8 ("\x7b\"msgs\":\x7b\"password\":[\"Password is required.\"]," ++
          "\"username\":[\"Username is required.\"]\x7d,\"data\":null\x7d")),
         some GoError.ErrValidation)) ∧
    (validateLogin w (params.loginParams Username Password)).2 = w := by
  by_cases hU : Username = "" <;> by_cases hP : Password = ""
  · subst hU; subst hP
    rw [validateLogin_nothing_given]
    simp
  · subst hU
    rw [validateLogin_no_username w Password hP]
    simp [hP]
  · subst hP
    rw [validateLogin_no_password w Username hU]
    simp [hU]
  · rw [validateLogin_both_given w Username Password hU hP]
    simp [hU, hP]

/-- Witness of `validateLogin_spec`: an empty user name with a password, and an
empty password with a user name. -/
theorem validateLogin_spec_witness :
    (validateLogin sampleWorld (params.loginParams "" "secret")).1 =
      (some (utf8
        "\x7b\"msgs\":\x7b\"username\":[\"Username is required.\"]\x7d,\"data\":null\x7d"),
       some GoError.ErrValidation) ∧
    (validateLogin sampleWorld (params.loginParams "alice" "")).1 =
      (some (utf8
        "\x7b\"msgs\":\x7b\"password\":[\"Password is required.\"]\x7d,\"data\":null\x7d"),
       some GoError.ErrValidation) ∧
    (validateLogin sampleWorld (params.loginParams "alice" "secret")).1 = (none, none) :=
  ⟨(validateLogin_spec sampleWorld "" "secret").2.1 rfl (by decide),
   (validateLogin_spec sampleWorld "alice" "").2.2.1 (by decide) rfl,
   (validateLogin_spec sampleWorld "alice" "secret").1.2 ⟨by decide, by decide⟩⟩

/-! ## Properties of deleteUser, postUser and NewResponse -/

theorem deleteUser_own_id {σ : Type} (db : Db σ) (u : User) (r : World (Env σ)) (p : params)
    (hid : ParseInt (r.ext.vars "id") = some u.Id)
    (hu : r.context userkey = some (Value.userPtr u)) :
    deleteUser db r p = ((none, some GoError.ErrBadRequest), r) := by
  unfold deleteUser
  simp [hid, hu]

theorem authed_deleteUser_own_id {σ : Type} (db : Db σ) (u : User) (g : Globals)
    (r0 : World (Env σ))
    (hs : r0.session "user" = some (Value.userPtr u)) (hrole : u.Role = admin)
    (hid : ParseInt (r0.ext.vars "id") = some u.Id) :
    makeAuthedAction (deleteUser db) (some [admin]) (bindContext g r0) params.nil =
      ((none, some GoError.ErrBadRequest),
        (bindContext g r0).contextSet userkey (Value.userPtr u)) := by
  have hin : inArray (some [admin]) u.Role = true := by rw [hrole]; decide
  rw [makeAuthedAction_accept (deleteUser db) (some [admin]) u (bindContext g r0) params.nil
    hs (Or.inr hin)]
  exact deleteUser_own_id db u _ params.nil hid (contextSet_userkey _ _)

/-- C17: for a caller identity `u` of any role in the request context and a
path id that reads as the id of `u`, `deleteUser` returns `ErrBadRequest` and
leaves the world as it was, whatever the database functions are: `DelUser` is
not called (the log of database calls stays empty). On the route
`DELETE /api/users/id`, guarded by the allow-list `{admin}`, an admin deleting
the own id gets the status 400, again without any database call. -/
theorem deleteUser_self {σ : Type} (db : Db σ) (u : User) :
    (∀ (r : World (Env σ)) (p : params),
      ParseInt (r.ext.vars "id") = some u.Id →
      r.context userkey = some (Value.userPtr u) →
      deleteUser db r p = ((none, some GoError.ErrBadRequest), r) ∧
      (deleteUser db.recorded (r.withRest (r.ext.rest, [])) p).2.ext.rest.2 = []) ∧
    (∀ (g : Globals) (decode : List Byte → params → Except String params)
      (r0 : World (Env σ)),
      r0.session "user" = some (Value.userPtr u) → u.Role = admin →
      ParseInt (r0.ext.vars "id") = some u.Id → r0.ext.w.status = none →
      (makeCtxHandler g decode (makeAuthedAction (deleteUser db) (some [admin])) params.nil
        r0).ext.w.status = some 400 ∧
      (makeCtxHandler g decode (makeAuthedAction (deleteUser db) (some [admin])) params.nil
        r0).ext.rest = r0.ext.rest ∧
      (makeCtxHandler g decode (makeAuthedAction (deleteUser db.recorded) (some [admin]))
        params.nil (r0.withRest (r0.ext.rest, []))).ext.rest.2 = []) := by
  constructor
  · intro r p hid hu
    refine ⟨deleteUser_own_id db u r p hid hu, ?_⟩
    rw [deleteUser_own_id db.recorded u (r.withRest (r.ext.rest, [])) p hid hu]
    rfl
  · intro g decode r0 hs hrole hid hfresh
    have h1 := makeCtxHandler_run g decode (makeAuthedAction (deleteUser db) (some [admin]))
      params.nil params.nil r0 (Or.inl ⟨rfl, rfl⟩)
    have h2 := makeCtxHandler_run g decode
      (makeAuthedAction (deleteUser db.recorded) (some [admin]))
      params.nil params.nil (r0.withRest (r0.ext.rest, [])) (Or.inl ⟨rfl, rfl⟩)
    rw [authed_deleteUser_own_id db u g r0 hs hrole hid] at h1
    rw [authed_deleteUser_own_id db.recorded u g (r0.withRest (r0.ext.rest, [])) hs hrole hid]
      at h2
    rw [h1, h2]
    refine ⟨?_, rfl, rfl⟩
    rw [onWriter_w, writeOutcome_badRequest]
    exact WriteHeader_Fprintln_status _ _ _ hfresh

/-- Witness of `deleteUser_self`: the editor with id 7 on the path id 7, and the
admin with id 7 on the route. -/
theorem deleteUser_self_witness :
    (deleteUser sampleDb.recorded
        ((sampleRequest "7").contextSet userkey (Value.userPtr (sampleUser 7 editor)))
        params.nil).1 = (none, some GoError.ErrBadRequest) ∧
    (makeCtxHandler sampleGlobals (failingDecode "x")
        (makeAuthedAction (deleteUser sampleDb.recorded) (some [admin])) params.nil
        (sampleRequestOf "7" (Value.userPtr (sampleUser 7 admin)))).ext.w.status = some 400 ∧
    (makeCtxHandler sampleGlobals (failingDecode "x")
        (makeAuthedAction (deleteUser sampleDb.recorded) (some [admin])) params.nil
        (sampleRequestOf "7" (Value.userPtr (sampleUser 7 admin)))).ext.rest = (0, []) :=
  ⟨congrArg Prod.fst (((deleteUser_self sampleDb.recorded (sampleUser 7 editor)).1
      ((sampleRequest "7").contextSet userkey (Value.userPtr (sampleUser 7 editor)))
      params.nil (by decide) rfl).1),
   ((deleteUser_self sampleDb.recorded (sampleUser 7 admin)).2 sampleGlobals
      (failingDecode "x") (sampleRequestOf "7" (Value.userPtr (sampleUser 7 admin)))
      rfl rfl (by decide) rfl).1,
   ((deleteUser_self sampleDb.recorded (sampleUser 7 admin)).2 sampleGlobals
      (failingDecode "x") (sampleRequestOf "7" (Value.userPtr (sampleUser 7 admin)))
      rfl rfl (by decide) rfl).2.1⟩

/-- What `postUser` does for an editor sending a positive id: another id is
refused without a database call, the own id is updated with the role editor. -/
theorem postUser_editor_update {σ : Type} (db : Db σ) (encUser : User → String) (u : User)
    (r : World (Env σ)) (param : User)
    (hu : r.context userkey = some (Value.userPtr u)) (hrole : u.Role = editor)
    (hid : param.Id > 0) :
    (param.Id ≠ u.Id →
      postUser db encUser r (params.user param) = ((none, some GoError.ErrUnauthorized), r)) ∧
    (param.Id = u.Id →
      (postUser db.recorded encUser (r.withRest (r.ext.rest, [])) (params.user param)).2.ext.rest.2
        = [DbCall.UpdateUser { param with Role := editor }]) := by
  constructor
  · intro hne
    unfold postUser
    simp [hid, hu, hrole, hne]
  · intro heq
    have hu2 : (r.withRest (r.ext.rest, ([] : List DbCall))).context userkey
        = some (Value.userPtr u) := hu
    have hnot : ¬ (u.Role = editor ∧ param.Id ≠ u.Id) := fun h => h.2 heq
    unfold postUser
    simp only [hu2, if_pos hid, if_neg hnot, if_pos hrole]
    split <;> rfl

/-- C18, evaluated: an editor (id 2) sends a user record with id 0 and role
admin. `postUser` takes the branch for ids that are not positive and calls
`InsertUser` with the record as sent, role admin included; no error is
returned. The same holds behind `makeAuthedAction` without roles, as the PUT
route is registered, whereas the allow-list `{admin}` of the POST route refuses
the editor without any database call. -/
theorem postUser_editor_inserts_admin :
    (sampleUser 2 editor).Role = editor ∧ (sampleUser 0 admin).Role = admin ∧
    (postUser sampleDb.recorded (fun _ => "null")
      ((sampleRequest "").contextSet userkey (Value.userPtr (sampleUser 2 editor)))
      (params.user (sampleUser 0 admin))).1.2 = none ∧
    (postUser sampleDb.recorded (fun _ => "null")
      ((sampleRequest "").contextSet userkey (Value.userPtr (sampleUser 2 editor)))
      (params.user (sampleUser 0 admin))).2.ext.rest.2
      = [DbCall.InsertUser (sampleUser 0 admin)] ∧
    (makeAuthedAction (postUser sampleDb.recorded (fun _ => "null")) none
      (sampleRequestOf "" (Value.userPtr (sampleUser 2 editor)))
      (params.user (sampleUser 0 admin))).2.ext.rest.2
      = [DbCall.InsertUser (sampleUser 0 admin)] ∧
    (makeAuthedAction (postUser sampleDb.recorded (fun _ => "null")) (some [admin])
      (sampleRequestOf "" (Value.userPtr (sampleUser 2 editor)))
      (params.user (sampleUser 0 admin))).1 = (none, some GoError.ErrUnauthorized) ∧
    (makeAuthedAction (postUser sampleDb.recorded (fun _ => "null")) (some [admin])
      (sampleRequestOf "" (Value.userPtr (sampleUser 2 editor)))
      (params.user (sampleUser 0 admin))).2.ext.rest.2 = [] := by
  decide

/-- C19, evaluated: `NewResponse` hands a `map[string][]string` argument on as it
is, so for the nil map the messages are nil and the JSON text carries
`"msgs":null`; this is the only argument for which the messages are nil. A
string `s` yields the one entry `global` with the one message `s`, a list `l`
yields the one entry `global` with `l`, and the nil interface and values of any
other type yield the empty, non-nil map. -/
theorem NewResponse_msgs_nil_iff :
    (∀ (msgs : MsgsArg) (data : Option String),
      (NewResponse msgs data).Msgs = none ↔ msgs = MsgsArg.map none) ∧
    jsonMarshalResponse (NewResponse (MsgsArg.map none) none)
      = "\x7b\"msgs\":null,\"data\":null\x7d" ∧
    (∀ (s : String) (data : Option String),
      (NewResponse (MsgsArg.str s) data).Msgs = some [("global", some [s])]) ∧
    (∀ (l : Slice String) (data : Option String),
      (NewResponse (MsgsArg.strs l) data).Msgs = some [("global", l)]) ∧
    (∀ data : Option String, (NewResponse MsgsArg.nil data).Msgs = some []) ∧
    (∀ (tag : Nat) (data : Option String),
      (NewResponse (MsgsArg.foreign tag) data).Msgs = some []) ∧
    jsonMarshalResponse (NewResponse MsgsArg.nil none) = "\x7b\"msgs\":\x7b\x7d,\"data\":null\x7d" := by
  refine ⟨?_, by decide, fun _ _ => rfl, fun _ _ => rfl, fun _ => rfl, fun _ _ => rfl,
    by decide⟩
  intro msgs data
  cases msgs with
  | nil => simp [NewResponse]
  | str s => simp [NewResponse]
  | strs l => simp [NewResponse]
  | map m => simp [NewResponse]
  | foreign tag => simp [NewResponse]

/-! ## Reading back the bodies written from errJsTmpl -/

theorem dropPrefix_append (pre rest : List Char) : dropPrefix pre (pre ++ rest) = some rest := by
  induction pre with
  | nil => cases rest <;> rfl
  | cons p ps ih => simp [dropPrefix, ih]

theorem jsonStringTail_plain (s rest : List Char)
    (h : ∀ c ∈ s, c.toNat ≠ 34 ∧ c.toNat ≠ 92 ∧ 32 ≤ c.toNat) :
    jsonStringTail (s ++ Char.ofNat 34 :: rest) = some (s, rest) := by
  induction s with
  | nil =>
    show jsonStringTail (Char.ofNat 34 :: rest) = some ([], rest)
    unfold jsonStringTail
    simp
  | cons c cs ih =>
    have hc := h c (List.mem_cons_self _ _)
    have hcs : ∀ d ∈ cs, d.toNat ≠ 34 ∧ d.toNat ≠ 92 ∧ 32 ≤ d.toNat :=
      fun d hd => h d (List.mem_cons_of_mem _ hd)
    have h32 : ¬ c.toNat < 32 := Nat.not_lt.mpr hc.2.2
    show jsonStringTail (c :: (cs ++ Char.ofNat 34 :: rest)) = some (c :: cs, rest)
    unfold jsonStringTail
    simp [hc.1, hc.2.1, h32, ih hcs]

/-- An error text without quote, backslash and control character is read back
from the body written for it: the text of `errJsTmpl` filled with it, followed by
a newline, is an envelope whose one global message is the text. -/
theorem decodeGlobalMsg_plain (text : String)
    (h : ∀ c ∈ text.data, c.toNat ≠ 34 ∧ c.toNat ≠ 92 ∧ 32 ≤ c.toNat) :
    decodeGlobalMsg (Sprintf errJsTmpl text ++ "\n") = some text := by
  have hdoc : (Sprintf errJsTmpl text ++ "\n").data =
      "\x7b\"msgs\":\x7b\"global\":[\"".data ++
        (text.data ++ Char.ofNat 34 :: ("]\x7d,\"data\":null\x7d".data ++ "\n".data)) := by
    have hs : Sprintf errJsTmpl text
        = "\x7b\"msgs\":\x7b\"global\":[\"" ++ text ++ "\"]\x7d,\"data\":null\x7d" := rfl
    rw [hs]
    simp [String.data_append]
  unfold decodeGlobalMsg
  rw [hdoc, dropPrefix_append]
  simp only [jsonStringTail_plain _ _ h, dropPrefix_append]
  rfl

/-! ## Properties of validateUser -/

theorem sorted_fields (a n r e : Option String) :
    sortedByKey (setMessage (setMessage (setMessage (setMessage [] "authId" a) "name" n)
        "role" r) "email" e)
      = [("authId", a), ("email", e), ("name", n), ("role", r)].filterMap
          (fun p => p.2.map (fun x => (p.1, some [x]))) := by
  cases a <;> cases n <;> cases r <;> cases e <;> rfl

/-- The text `json.Marshal` writes for the map `validateUser` builds from the
messages of the four fields is the envelope of the failing fields in the order
of their keys. -/
theorem marshal_fields (a n r e : Option String) :
    jsonMarshalResponse (NewResponse (MsgsArg.map (some
      (setMessage (setMessage (setMessage (setMessage [] "authId" a) "name" n) "role" r)
        "email" e))) none)
    = envelopeOfFields ([("authId", a), ("email", e), ("name", n), ("role", r)].filterMap
        (fun e => e.2.map (fun msg => (e.1, msg)))) := by
  unfold jsonMarshalResponse NewResponse envelopeOfFields
  simp only [jsonMap, sorted_fields]
  cases a <;> cases n <;> cases r <;> cases e <;>
    simp [commaSep, jsonStrings, List.filterMap, List.append_assoc]

theorem fields_length (a n r e : Option String) :
    (setMessage (setMessage (setMessage (setMessage [] "authId" a) "name" n) "role" r)
        "email" e).length > 0 ↔ ¬ (a = none ∧ n = none ∧ r = none ∧ e = none) := by
  cases a <;> cases n <;> cases r <;> cases e <;> simp [setMessage, mapSet]

/-- The map `validateUser` fills, in terms of the messages of the four fields. -/
theorem validateUser_eq {σ : Type} (PA : String → Except String String) (w : World σ)
    (u : User) :
    validateUser PA w (params.user u) =
      if (setMessage (setMessage (setMessage (setMessage [] "authId" (authIdMessage u)) "name"
          (nameMessage u)) "role" (roleMessage u)) "email" (emailMessage PA u)).length > 0 then
        ((some (utf8 (jsonMarshalResponse (NewResponse (MsgsArg.map (some
          (setMessage (setMessage (setMessage (setMessage [] "authId" (authIdMessage u)) "name"
          (nameMessage u)) "role" (roleMessage u)) "email" (emailMessage PA u)))) none))),
          some GoError.ErrValidation), w)
      else ((none, none), w) := by
  have h1 : (if u.Id = 0 ∧ u.AuthId = "" then mapSet [] "authId" (some ["Auth ID is required."])
      else []) = setMessage [] "authId" (authIdMessage u) := by
    unfold authIdMessage; split <;> rfl
  have h2 : ∀ m : StrMap, (if u.Name = "" then mapSet m "name" (some ["Name is required."])
      else m) = setMessage m "name" (nameMessage u) := by
    intro m; unfold nameMessage; split <;> rfl
  have h3 : ∀ m : StrMap, (if u.Role = "" then mapSet m "role" (some ["Role is required."])
      else if u.Role ≠ admin ∧ u.Role ≠ editor then mapSet m "role" (some ["Role is invalid."])
      else m) = setMessage m "role" (roleMessage u) := by
    intro m; unfold roleMessage
    by_cases hr : u.Role = ""
    · simp [hr, setMessage]
    · by_cases ha : u.Role = "admin"
      · simp [hr, ha, setMessage, admin]
      · by_cases he : u.Role = "editor"
        · simp [hr, he, setMessage, editor]
        · simp [hr, ha, he, setMessage, admin, editor]
  have h4 : ∀ m : StrMap, (if u.Email = "" then mapSet m "email" (some ["Email is required."])
      else
        match PA u.Email with
        | Except.error e => mapSet m "email" (some [e])
        | Except.ok _ => m) = setMessage m "email" (emailMessage PA u) := by
    intro m; unfold emailMessage
    by_cases hE : u.Email = ""
    · simp [hE, setMessage]
    · simp only [hE, if_false]
      cases PA u.Email <;> rfl
  simp only [validateUser, h1, h2, h3, h4]

theorem authIdMessage_none_iff (u : User) :
    authIdMessage u = none ↔ (u.Id ≠ 0 ∨ u.AuthId ≠ "") := by
  unfold authIdMessage
  by_cases h : u.Id = 0 ∧ u.AuthId = ""
  · simp [h]
  · simp only [h, if_false, true_iff]
    by_cases h0 : u.Id = 0
    · exact Or.inr (fun ha => h ⟨h0, ha⟩)
    · exact Or.inl h0

theorem nameMessage_none_iff (u : User) : nameMessage u = none ↔ u.Name ≠ "" := by
  unfold nameMessage
  by_cases h : u.Name = "" <;> simp [h]

theorem roleMessage_none_iff (u : User) :
    roleMessage u = none ↔ (u.Role = "admin" ∨ u.Role = "editor") := by
  unfold roleMessage
  by_cases hr : u.Role = ""
  · simp [hr]
  · by_cases h : u.Role = "admin" ∨ u.Role = "editor" <;> simp [hr, h]

theorem emailMessage_none_iff (PA : String → Except String String) (u : User) :
    emailMessage PA u = none ↔ (u.Email ≠ "" ∧ ∃ a : String, PA u.Email = Except.ok a) := by
  unfold emailMessage
  by_cases hE : u.Email = ""
  · simp [hE]
  · simp only [hE, if_false, ne_eq, not_false_eq_true, true_and]
    cases PA u.Email <;> simp

/-- C21: for every `User` params value, `validateUser` returns `(nil, nil)` if and
only if the id is non-zero or the auth id non-empty, the name is non-empty, the
role is admin or editor, and the email is non-empty and parses as a mail
address. Otherwise it returns `ErrValidation` with the envelope that holds, for
each failing field among authId, email, name and role, one list with its one
message (for the role: required when empty, invalid when neither admin nor
editor; for the email: required when empty, else the error text of the parser)
and the data null. The world is left as it was. -/
theorem validateUser_spec {σ : Type} (ParseAddress : String → Except String String)
    (w : World σ) (u : User) :
    ((validateUser ParseAddress w (params.user u)).1 = (none, none) ↔
      (u.Id ≠ 0 ∨ u.AuthId ≠ "") ∧ u.Name ≠ "" ∧ (u.Role = "admin" ∨ u.Role = "editor") ∧
        u.Email ≠ "" ∧ ∃ a : String, ParseAddress u.Email = Except.ok a) ∧
    (¬ ((u.Id ≠ 0 ∨ u.AuthId ≠ "") ∧ u.Name ≠ "" ∧ (u.Role = "admin" ∨ u.Role = "editor") ∧
        u.Email ≠ "" ∧ ∃ a : String, ParseAddress u.Email = Except.ok a) →
      (validateUser ParseAddress w (params.user u)).1 =
        (some (utf8 (envelopeOfFields (failingUserFields ParseAddress u))),
         some GoError.ErrValidation)) ∧
    (validateUser ParseAddress w (params.user u)).2 = w := by
  have hcond : (authIdMessage u = none ∧ nameMessage u = none ∧ roleMessage u = none ∧
      emailMessage ParseAddress u = none) ↔
      ((u.Id ≠ 0 ∨ u.AuthId ≠ "") ∧ u.Name ≠ "" ∧ (u.Role = "admin" ∨ u.Role = "editor") ∧
        u.Email ≠ "" ∧ ∃ a : String, ParseAddress u.Email = Except.ok a) := by
    rw [authIdMessage_none_iff, nameMessage_none_iff, roleMessage_none_iff,
      emailMessage_none_iff]
  have hlen := fields_length (authIdMessage u) (nameMessage u) (roleMessage u)
    (emailMessage ParseAddress u)
  rw [validateUser_eq]
  by_cases hall : authIdMessage u = none ∧ nameMessage u = none ∧ roleMessage u = none ∧
      emailMessage ParseAddress u = none
  · have hno : ¬ (setMessage (setMessage (setMessage (setMessage [] "authId" (authIdMessage u))
        "name" (nameMessage u)) "role" (roleMessage u)) "email"
        (emailMessage ParseAddress u)).length > 0 := fun h => hlen.1 h hall
    rw [if_neg hno]
    exact ⟨⟨fun _ => hcond.1 hall, fun _ => rfl⟩, fun h => absurd (hcond.1 hall) h, rfl⟩
  · have hyes := hlen.2 hall
    rw [if_pos hyes]
    refine ⟨⟨fun h => ?_, fun h => absurd (hcond.2 h) hall⟩, fun _ => ?_, rfl⟩
    · simp at h
    · rw [marshal_fields]
      rfl

/-- Witness of `validateUser_spec`: a record failing in all four fields (no id
and no auth id, no name, an unknown role, an email that does not parse), and a
record passing all checks. -/
theorem validateUser_spec_witness :
    (validateUser sampleParseAddress sampleWorld (params.user sampleBadUser)).1 =
      (some (utf8 ("\x7b\"msgs\":\x7b\"authId\":[\"Auth ID is required.\"]," ++
          "\"email\":[\"mail: missing @\"],\"name\":[\"Name is required.\"]," ++
          "\"role\":[\"Role is invalid.\"]\x7d,\"data\":null\x7d")),
       some GoError.ErrValidation) ∧
    (validateUser sampleParseAddress sampleWorld (params.user (sampleUser 0 editor))).1
      = (none, none) :=
  ⟨(validateUser_spec sampleParseAddress sampleWorld sampleBadUser).2.1 (fun h => h.2.1 rfl),
   (validateUser_spec sampleParseAddress sampleWorld (sampleUser 0 editor)).1.2
      ⟨Or.inr (by decide), by decide, Or.inr rfl, by decide, "user@example.com", rfl⟩⟩

/-! ## Properties of SaveImage and GetImage -/

theorem Get_of_fresh_entry (noimage : List Byte) (images : imgmap.ImgMap) (k : Int)
    (i : imgmap.img) (t : Int) (hm : images.m k = some i)
    (h30 : t - i.timestamp < 30) (hlo : -(2 ^ 63) + 30 ≤ t) (hhi : t < 2 ^ 63) :
    (images.Get noimage t k).1 = (i.data, none) := by
  have hw : wrapInt64 (t - 30) = t - 30 :=
    imgmap.wrapInt64_of_isInt64 (by unfold isInt64; omega)
  have hgt : i.timestamp > t - 30 := by omega
  unfold imgmap.ImgMap.Get
  rw [hm]
  simp [hw, hgt]

theorem SaveImage_ok (DecodeString : String → Bytes × Error) (images : imgmap.ImgMap)
    (now userId : Int) (image : String) (b : Bytes) (h : DecodeString image = (b, none)) :
    SaveImage DecodeString images now userId image = (none, images.Set now userId b) := by
  simp [SaveImage, h]

/-- C22: when the image string decodes to the bytes `b`, `SaveImage` returns a
nil error and binds the user id to exactly `b` with the current time, leaving
the images of the other users alone, and a `GetImage` for that id at a clock
reading less than 30 seconds later returns `b` with a nil error. When decoding
fails, `SaveImage` returns the error of the decoder and the image map is the
one before the call, the previous image of that user included. -/
theorem SaveImage_spec (DecodeString : String → Bytes × Error) (noimage : List Byte)
    (images : imgmap.ImgMap) (now userId : Int) (image : String) :
    (∀ b : Bytes, DecodeString image = (b, none) →
      SaveImage DecodeString images now userId image = (none, images.Set now userId b) ∧
      (SaveImage DecodeString images now userId image).2.m userId
        = some { data := b, timestamp := now } ∧
      (∀ k : Int, k ≠ userId →
        (SaveImage DecodeString images now userId image).2.m k = images.m k) ∧
      (∀ t : Int, 0 ≤ t - now → t - now < 30 → -(2 ^ 63) + 30 ≤ t → t < 2 ^ 63 →
        (GetImage noimage (SaveImage DecodeString images now userId image).2 t userId).1
          = (b, none))) ∧
    (∀ (b : Bytes) (e : GoError), DecodeString image = (b, some e) →
      SaveImage DecodeString images now userId image = (some e, images) ∧
      (SaveImage DecodeString images now userId image).2.m userId = images.m userId) := by
  constructor
  · intro b h
    have hs := SaveImage_ok DecodeString images now userId image b h
    have hm : (images.Set now userId b).m userId = some { data := b, timestamp := now } := by
      simp [imgmap.ImgMap.Set]
    rw [hs]
    refine ⟨rfl, hm, ?_, ?_⟩
    · intro k hk
      simp [imgmap.ImgMap.Set, hk]
    · intro t _ h30 hlo hhi
      exact Get_of_fresh_entry noimage _ userId _ t hm h30 hlo hhi
  · intro b e h
    have hs : SaveImage DecodeString images now userId image = (some e, images) := by
      simp [SaveImage, h]
    rw [hs]
    exact ⟨rfl, rfl⟩

/-- Witness of `SaveImage_spec`: the text `QUJD` decodes to three bytes, which a
`GetImage` 29 seconds later returns; the text `QUJ` does not decode, and the
image saved before is still the one returned. -/
theorem SaveImage_spec_witness :
    (GetImage [0] (SaveImage sampleDecodeString imgmap.New 100 1 "QUJD").2 129 1).1
      = (some [65, 66, 67], none) ∧
    (SaveImage sampleDecodeString (SaveImage sampleDecodeString imgmap.New 100 1 "QUJD").2
        110 1 "QUJ").1 = some (GoError.other "illegal base64 data") ∧
    (SaveImage sampleDecodeString (SaveImage sampleDecodeString imgmap.New 100 1 "QUJD").2
        110 1 "QUJ").2.m 1
      = (SaveImage sampleDecodeString imgmap.New 100 1 "QUJD").2.m 1 :=
  ⟨((SaveImage_spec sampleDecodeString [0] imgmap.New 100 1 "QUJD").1 (some [65, 66, 67])
      (by decide)).2.2.2 129 (by decide) (by decide) (by decide) (by decide),
   congrArg Prod.fst (((SaveImage_spec sampleDecodeString [0]
      (SaveImage sampleDecodeString imgmap.New 100 1 "QUJD").2 110 1 "QUJ").2 (some [])
      (GoError.other "illegal base64 data") (by decide)).1),
   ((SaveImage_spec sampleDecodeString [0]
      (SaveImage sampleDecodeString imgmap.New 100 1 "QUJD").2 110 1 "QUJ").2 (some [])
      (GoError.other "illegal base64 data") (by decide)).2⟩

/-- C15, evaluated: on the login route the body `{"a" "b"}` does not decode, and
the decoder reports a text that holds a double quote. The handler answers 500
and does not invoke the action (its counter and its invocation log stay
untouched), but the error text is put between the quotes of `errJsTmpl` as it
is: the body written is not an envelope whose global message is the error
text, the quote inside the text closing the JSON string early. -/
theorem makeCtxHandler_decode_error_unescaped :
    (makeCtxHandler sampleGlobals (failingDecode sampleDecodeErrorText)
      (sampleEnvAction 1 (some [7], none)) (params.loginParams "" "")
      sampleLoginRequest).ext.w.status = some 500 ∧
    (makeCtxHandler sampleGlobals (failingDecode sampleDecodeErrorText)
      (sampleEnvAction 1 (some [7], none)) (params.loginParams "" "")
      sampleLoginRequest).ext.rest = (0, []) ∧
    (makeCtxHandler sampleGlobals (failingDecode sampleDecodeErrorText)
      (tracedEnv 0 (sampleEnvAction 1 (some [7], none))) (params.loginParams "" "")
      (sampleLoginRequest.withRest (sampleLoginRequest.ext.rest, []))).ext.rest.2 = [] ∧
    (makeCtxHandler sampleGlobals (failingDecode sampleDecodeErrorText)
      (sampleEnvAction 1 (some [7], none)) (params.loginParams "" "")
      sampleLoginRequest).ext.w.body
      = utf8 ("\x7b\"msgs\":\x7b\"global\":[\"invalid character \x27\"\x27 after object key\"]"
          ++ "\x7d,\"data\":null\x7d\n") ∧
    decodeGlobalMsg ("\x7b\"msgs\":\x7b\"global\":[\"invalid character \x27\"\x27 after object key\"]"
          ++ "\x7d,\"data\":null\x7d\n") = none ∧
    decodeGlobalMsg ("\x7b\"msgs\":\x7b\"global\":[\"invalid character \x27\"\x27 after object key\"]"
          ++ "\x7d,\"data\":null\x7d\n") ≠ some sampleDecodeErrorText := by
  decide

end Mizumanju
